import Mathlib

/-!
Verification of the crane_core ground-bearing solver, the tower-crane
moment limiter and the load-chart lookup engine, embedded shallowly from
the Rust source (src/physics/ground_bearing.rs,
src/equipment/crane/tower.rs, src/capacity/load_chart.rs).

Modelling conventions:
* `f64` scalars become exact rationals (`ℚ`).  Theorems about numeric
  results state the ideal-arithmetic semantics of the code and carry
  nonzero-divisor hypotheses wherever the code can divide by zero
  (Lean's total division `q / 0 = 0` differs from IEEE there).
* Quantities are stored in the unit the code extracts at the point of
  use: weights and forces in pounds, coordinates in feet, contact areas
  in square inches, pressures in psi, tower moments in ft-lb, chart
  lengths in feet and chart capacities in pounds.  The uom wrappers
  convert exactly at these boundaries.
* `Result<T, E>` becomes `Except E T`, preserving the evaluation order
  of the source (errors raised by earlier steps shadow later ones).
* The general solver compares squared distances; `f64::sqrt` is
  strictly monotone on nonnegatives, so the nearest support is the same.
* Rust's `Iterator::max_by` keeps the last of equal maxima and `min_by`
  keeps the first of equal minima; `maxByLast` and `minByFirst` mirror
  exactly that.
-/

deriving instance DecidableEq for Except

/-- Point3<f64> from nalgebra, coordinates in feet. -/
structure Point3 where
  x : ℚ
  y : ℚ
  z : ℚ
deriving DecidableEq

/-- SupportPoint: position in feet, contact area held in square inches
(the unit the solver extracts with `get::<square_inch>()`). -/
structure SupportPoint where
  position : Point3
  contact_area : ℚ
  name : String
deriving DecidableEq

instance : Inhabited SupportPoint := ⟨⟨⟨0, 0, 0⟩, 0, ""⟩⟩

/-- GroundBearingAnalysis: crane and load data plus the ordered support
list.  Weights in pounds, coordinates in feet. -/
structure GroundBearingAnalysis where
  support_points : List SupportPoint
  crane_weight : ℚ
  crane_cog : Point3
  load_weight : ℚ
  load_position : Point3
deriving DecidableEq

/-- SupportReaction result record: force in pounds-force, pressure in
psi, contact area in square inches. -/
structure SupportReaction where
  name : String
  force : ℚ
  pressure : ℚ
  contact_area : ℚ
deriving DecidableEq

instance : Inhabited SupportReaction := ⟨⟨"", 0, 0, 0⟩⟩

/-- GroundBearingResult: per-support reactions plus the tracked maxima. -/
structure GroundBearingResult where
  reactions : List SupportReaction
  max_reaction : ℚ
  max_pressure : ℚ
  critical_support_index : ℕ
deriving DecidableEq

/-- GroundBearingError.  `ExceedsAllowable` keeps the two pressures in
psi (the `DisplayGroundBearingPressure` wrapper only affects printing). -/
inductive GroundBearingError where
  | InvalidConfiguration (msg : String)
  | UnstableConfiguration (name : String)
  | InsufficientSupports
  | ExceedsAllowable (actual allowable : ℚ)
deriving DecidableEq

/-- Maximum of a list of rationals, as produced by Rust's
`iter().max_by(..).unwrap()` on a nonempty list (value only). -/
def listMax : List ℚ → ℚ
  | [] => 0
  | x :: xs => xs.foldl max x

/-- Minimum of a list of rationals (value only). -/
def listMin : List ℚ → ℚ
  | [] => 0
  | x :: xs => xs.foldl min x

/-- X coordinates of the supports. -/
def GroundBearingAnalysis.supportXs (A : GroundBearingAnalysis) : List ℚ :=
  A.support_points.map (fun s => s.position.x)

/-- Z coordinates of the supports. -/
def GroundBearingAnalysis.supportZs (A : GroundBearingAnalysis) : List ℚ :=
  A.support_points.map (fun s => s.position.z)

/-- Average support X (the code divides by 4.0 unconditionally). -/
def GroundBearingAnalysis.avgX (A : GroundBearingAnalysis) : ℚ :=
  A.supportXs.sum / 4

/-- Average support Z. -/
def GroundBearingAnalysis.avgZ (A : GroundBearingAnalysis) : ℚ :=
  A.supportZs.sum / 4

/-- Support span in X: max minus min of the support X coordinates. -/
def GroundBearingAnalysis.xSpan (A : GroundBearingAnalysis) : ℚ :=
  listMax A.supportXs - listMin A.supportXs

/-- Support span in Z. -/
def GroundBearingAnalysis.zSpan (A : GroundBearingAnalysis) : ℚ :=
  listMax A.supportZs - listMin A.supportZs

/-- Combined crane plus load weight in pounds. -/
def GroundBearingAnalysis.totalWeight (A : GroundBearingAnalysis) : ℚ :=
  A.crane_weight + A.load_weight

/-- Combined center of gravity: `(crane_moment + load_moment) / total`,
computed componentwise exactly as `calculate_four_point_reactions` does. -/
def GroundBearingAnalysis.combinedCog (A : GroundBearingAnalysis) : Point3 :=
  let W := A.totalWeight
  { x := (A.crane_cog.x * A.crane_weight + A.load_position.x * A.load_weight) / W
    y := (A.crane_cog.y * A.crane_weight + A.load_position.y * A.load_weight) / W
    z := (A.crane_cog.z * A.crane_weight + A.load_position.z * A.load_weight) / W }

/-- Reaction values of the four-point moment solver, before the
negativity check: `base_reaction + x_effect + z_effect` per support,
with the sign of each effect chosen by the side of the centerline. -/
def GroundBearingAnalysis.fourPointReactionValues (A : GroundBearingAnalysis)
    (cog : Point3) (W : ℚ) : List ℚ :=
  let avg_x := A.avgX
  let avg_z := A.avgZ
  let dx := cog.x - avg_x
  let dz := cog.z - avg_z
  let base_reaction := W / 4
  let x_span := A.xSpan
  let z_span := A.zSpan
  A.support_points.map (fun s =>
    let x_effect := if s.position.x > avg_x
      then dx / x_span * W / 2
      else -(dx / x_span) * W / 2
    let z_effect := if s.position.z > avg_z
      then dz / z_span * W / 2
      else -(dz / z_span) * W / 2
    base_reaction + x_effect + z_effect)

/-- Sequential negativity check of `calculate_reactions_from_moments`:
the source checks `reactions[i] < 0.0` right after computing reaction
`i` and fails with the first offending support's name. -/
def reactionCheckLoop : List (SupportPoint × ℚ) →
    Except GroundBearingError (List ℚ)
  | [] => .ok []
  | (s, r) :: rest =>
    if r < 0 then .error (.UnstableConfiguration s.name)
    else
      match reactionCheckLoop rest with
      | .error e => .error e
      | .ok tail => .ok (r :: tail)

/-- First support whose computed reaction is negative, if any. -/
def firstNegative : List (SupportPoint × ℚ) → Option SupportPoint
  | [] => none
  | (s, r) :: rest => if r < 0 then some s else firstNegative rest

/-- calculate_reactions_from_moments: guard on the support count, then
compute moment-adjusted reactions and fail at the first negative one. -/
def GroundBearingAnalysis.calculate_reactions_from_moments
    (A : GroundBearingAnalysis) (cog : Point3) (W : ℚ) :
    Except GroundBearingError (List ℚ) :=
  if A.support_points.length ≠ 4 then
    .error (.InvalidConfiguration "Four-point method requires exactly 4 supports")
  else
    reactionCheckLoop (A.support_points.zip (A.fourPointReactionValues cog W))

/-- Pressure loop of `calculate_four_point_reactions`: builds the
reaction records and tracks max reaction, its pressure and its index,
updating only on a strictly larger force (initial maxima are zero). -/
def pressureLoop : List (SupportPoint × ℚ) → ℕ → ℚ → ℚ → ℕ →
    List SupportReaction × ℚ × ℚ × ℕ
  | [], _, maxR, maxP, crit => ([], maxR, maxP, crit)
  | (s, r) :: rest, i, maxR, maxP, crit =>
    let pressure := r / s.contact_area
    let next :=
      if r > maxR then pressureLoop rest (i + 1) r pressure i
      else pressureLoop rest (i + 1) maxR maxP crit
    (⟨s.name, r, pressure, s.contact_area⟩ :: next.1, next.2)

/-- calculate_four_point_reactions: combined COG, moment solve, then
the pressure loop. -/
def GroundBearingAnalysis.calculate_four_point_reactions
    (A : GroundBearingAnalysis) :
    Except GroundBearingError GroundBearingResult :=
  let W := A.totalWeight
  match A.calculate_reactions_from_moments A.combinedCog W with
  | .error e => .error e
  | .ok vals =>
    let out := pressureLoop (A.support_points.zip vals) 0 0 0 0
    .ok { reactions := out.1
          max_reaction := out.2.1
          max_pressure := out.2.2.1
          critical_support_index := out.2.2.2 }

/-- Squared distance between two points (feet squared); `f64::sqrt` is
strictly monotone so comparisons agree with the source's `.norm()`. -/
def dist2 (p q : Point3) : ℚ :=
  (p.x - q.x) ^ 2 + (p.y - q.y) ^ 2 + (p.z - q.z) ^ 2

/-- Nearest-support scan of `calculate_general_reactions`: `none`
models the initial `f64::MAX`, and the update is on strict `<`, so the
first of equally distant supports wins. -/
def nearestAux (load : Point3) : List SupportPoint → ℕ → Option ℚ → ℕ → ℕ
  | [], _, _, best => best
  | s :: rest, i, cur, best =>
    let d := dist2 s.position load
    match cur with
    | none => nearestAux load rest (i + 1) (some d) i
    | some m =>
      if d < m then nearestAux load rest (i + 1) (some d) i
      else nearestAux load rest (i + 1) cur best

/-- Index of the support closest to the load position. -/
def GroundBearingAnalysis.nearestSupportIdx (A : GroundBearingAnalysis) : ℕ :=
  nearestAux A.load_position A.support_points 0 none 0

/-- calculate_general_reactions: the conservative fallback puts the
whole combined weight on the support nearest the load and zero force on
all others; it has no error path. -/
def GroundBearingAnalysis.calculate_general_reactions
    (A : GroundBearingAnalysis) :
    Except GroundBearingError GroundBearingResult :=
  let W := A.totalWeight
  let crit := A.nearestSupportIdx
  let critArea := (A.support_points.getD crit default).contact_area
  let support_reactions := A.support_points.enum.map (fun p =>
    let reaction := if p.1 = crit then W else 0
    (⟨p.2.name, reaction, reaction / p.2.contact_area, p.2.contact_area⟩ :
      SupportReaction))
  .ok { reactions := support_reactions
        max_reaction := W
        max_pressure := W / critArea
        critical_support_index := crit }

/-- calculate_reactions: less than 3 supports is an error, exactly 4
uses the analytical solver, anything else the general fallback. -/
def GroundBearingAnalysis.calculate_reactions (A : GroundBearingAnalysis) :
    Except GroundBearingError GroundBearingResult :=
  if A.support_points.length < 3 then .error .InsufficientSupports
  else if A.support_points.length = 4 then A.calculate_four_point_reactions
  else A.calculate_general_reactions

/-- validate_soil_capacity: fail with `ExceedsAllowable` only when the
computed max pressure strictly exceeds the allowable pressure. -/
def GroundBearingAnalysis.validate_soil_capacity (A : GroundBearingAnalysis)
    (allowable_pressure : ℚ) : Except GroundBearingError Unit :=
  match A.calculate_reactions with
  | .error e => .error e
  | .ok result =>
    if result.max_pressure > allowable_pressure then
      .error (.ExceedsAllowable result.max_pressure allowable_pressure)
    else .ok ()

/-- required_mat_area: `max_reaction / (allowable / safety_factor)`,
in square inches. -/
def GroundBearingAnalysis.required_mat_area (A : GroundBearingAnalysis)
    (allowable_pressure safety_factor : ℚ) :
    Except GroundBearingError ℚ :=
  match A.calculate_reactions with
  | .error e => .error e
  | .ok result => .ok (result.max_reaction / (allowable_pressure / safety_factor))

/-- SafetyMargins for the tower-crane moment limiter (all plain `f64`
fractions in the source). -/
structure SafetyMargins where
  safety_factor : ℚ
  warning_factor : ℚ
  shutdown_factor : ℚ
deriving DecidableEq

/-- Standard margins: 90 percent warning, 100 percent shutdown, safety
factor 1. -/
def SafetyMargins.standard : SafetyMargins :=
  { warning_factor := 9 / 10, shutdown_factor := 1, safety_factor := 1 }

/-- SafetyMargins::validate, modelled as the success bit of the source's
`Result<(), String>` (the error strings only carry the offending value). -/
def SafetyMargins.validate_ok (m : SafetyMargins) : Bool :=
  !(decide (m.warning_factor ≤ 0) || decide (m.warning_factor > 1)) &&
  !(decide (m.shutdown_factor ≤ 0) || decide (m.shutdown_factor > 1)) &&
  !(decide (m.safety_factor ≤ 0) || decide (m.safety_factor > 1)) &&
  !(decide (m.warning_factor ≥ m.shutdown_factor))

/-- Effective warning moment: `rated * warning_factor * safety_factor`
(`TowerMoment` is a plain ft-lb scalar). -/
def SafetyMargins.effective_warning (m : SafetyMargins) (rated : ℚ) : ℚ :=
  rated * m.warning_factor * m.safety_factor

/-- Effective shutdown moment: `rated * shutdown_factor * safety_factor`. -/
def SafetyMargins.effective_shutdown (m : SafetyMargins) (rated : ℚ) : ℚ :=
  rated * m.shutdown_factor * m.safety_factor

/-- MomentLimiter: rated moment in ft-lb plus margins; `epsilon` is the
private field set to 0.01 by the constructor. -/
structure MomentLimiter where
  rated_moment : ℚ
  margins : SafetyMargins
  enabled : Bool
  epsilon : ℚ
deriving DecidableEq

/-- MomentLimiter::new, modelled with `Option` for the validated
construction (the source propagates the margin validation error). -/
def MomentLimiter.new (rated : ℚ) (margins : SafetyMargins) :
    Option MomentLimiter :=
  if margins.validate_ok then
    some { rated_moment := rated, margins := margins, enabled := true,
           epsilon := 1 / 100 }
  else none

/-- MomentLimiter::standard (the source unwraps: standard margins always
validate). -/
def MomentLimiter.standard (rated : ℚ) : MomentLimiter :=
  { rated_moment := rated, margins := .standard, enabled := true,
    epsilon := 1 / 100 }

/-- LimiterStatus classification. -/
inductive LimiterStatus where
  | Normal
  | Warning
  | Shutdown
  | Disabled
deriving DecidableEq

/-- MomentLimiter::check: disabled short-circuits, then the candidate
moment is compared against `threshold - epsilon` (shutdown first). -/
def MomentLimiter.check (L : MomentLimiter) (current_moment : ℚ) :
    LimiterStatus :=
  if !L.enabled then .Disabled
  else
    let shutdown := L.margins.effective_shutdown L.rated_moment
    let warning := L.margins.effective_warning L.rated_moment
    if current_moment > shutdown - L.epsilon then .Shutdown
    else if current_moment > warning - L.epsilon then .Warning
    else .Normal

/-- UnitError from the explicit-unit layer. -/
inductive UnitError where
  | UnknownLengthUnit (u : String)
  | UnknownMassUnit (u : String)
  | UnknownAngleUnit (u : String)
  | UnknownPressureUnit (u : String)
deriving DecidableEq

/-- LengthValue: raw value plus unit string (`WithUnit<Length>`). -/
structure LengthValue where
  value : ℚ
  unit : String
deriving DecidableEq

/-- MassValue: raw value plus unit string (`WithUnit<Mass>`). -/
structure MassValue where
  value : ℚ
  unit : String
deriving DecidableEq

/-- Feet per unit for every length unit string the source accepts
(1 ft = 0.3048 m exactly; the factors are the exact rationals the uom
conversions compose to). -/
def lengthUnitToFeet (u : String) : Option ℚ :=
  if u ∈ ["ft", "Ft", "FT", "foot", "Foot", "FOOT", "feet", "Feet", "FEET"]
  then some 1
  else if u ∈ ["in", "In", "IN", "inch", "Inch", "INCH", "inches", "Inches",
    "INCHES"] then some (1 / 12)
  else if u ∈ ["m", "M", "meter", "Meter", "METER", "metre", "Metre", "METRE",
    "meters", "Meters", "METERS", "metres", "Metres", "METRES"]
  then some (1250 / 381)
  else if u ∈ ["cm", "Cm", "CM", "centimeter", "Centimeter", "CENTIMETER",
    "centimetre", "Centimetre", "CENTIMETRE", "centimeters", "Centimeters",
    "CENTIMETERS", "centimetres", "Centimetres", "CENTIMETRES"]
  then some (25 / 762)
  else if u ∈ ["mm", "Mm", "MM", "millimeter", "Millimeter", "MILLIMETER",
    "millimetre", "Millinetre", "MILLIMETRE", "millimeters", "Millimeters",
    "MILLIMETERS", "millimetres", "Millimetres", "MILLIMETRES"]
  then some (5 / 1524)
  else if u ∈ ["yd", "Yd", "YD", "yard", "Yard", "YARD", "yards", "Yards",
    "YARDS"] then some 3
  else none

/-- Pounds per unit for every mass unit string the source accepts
(1 lb = 0.45359237 kg exactly; `KILOGRAN` is a typo present in the
source match arms). -/
def massUnitToPounds (u : String) : Option ℚ :=
  if u ∈ ["lb", "Lb", "LB", "lbs", "Lbs", "LBS", "pound", "Pound", "POUND",
    "pounds", "Pounds", "POUNDS"] then some 1
  else if u ∈ ["kg", "Kg", "KG", "kgs", "Kgs", "KGS", "kilogram", "Kilogram",
    "KILOGRAN", "kilograms", "Kilograms", "KILOGRANS"]
  then some (100000000 / 45359237)
  else if u ∈ ["short ton", "Short Ton", "SHORT TON", "short tons",
    "Short Tons", "SHORT TONS"] then some 2000
  else if u ∈ ["metric ton", "Metric Ton", "METRIC TON", "metric tons",
    "Metric Tons", "METRIC TONS"] then some (100000000000 / 45359237)
  else if u ∈ ["long ton", "Long Ton", "LONG TON", "long tons", "Long Tons",
    "LONG TONS"] then some 2240
  else if u ∈ ["g", "G", "gram", "Gram", "GRAM", "grams", "Grams", "GRAMS"]
  then some (100000 / 45359237)
  else none

/-- LengthValue::to_distance, landing in feet (the unit every chart
comparison extracts). -/
def LengthValue.to_distance (v : LengthValue) : Except UnitError ℚ :=
  match lengthUnitToFeet v.unit with
  | some f => .ok (v.value * f)
  | none => .error (.UnknownLengthUnit v.unit)

/-- MassValue::to_mass, landing in pounds. -/
def MassValue.to_mass (v : MassValue) : Except UnitError ℚ :=
  match massUnitToPounds v.unit with
  | some f => .ok (v.value * f)
  | none => .error (.UnknownMassUnit v.unit)

/-- LoadChartError.  The first variant wraps a `UnitError` (named
`UnitErr` here to avoid shadowing the error type); the length payloads
are the query values in feet (`DisplayLength` only affects printing). -/
inductive LoadChartError where
  | UnitErr (e : UnitError)
  | BoomLengthNotFound (l : ℚ)
  | RadiusOutOfRange (l : ℚ)
  | NoData
deriving DecidableEq

/-- CapacityData: boom lengths and, per boom length, the list of
(radius, capacity) pairs. -/
structure CapacityData where
  boom_lengths : List LengthValue
  data : List (List (LengthValue × MassValue))
deriving DecidableEq

/-- CapacityData::boom_lengths(): convert every stored boom length,
propagating the first unit error. -/
def CapacityData.boom_lengths_ft (cd : CapacityData) :
    Except UnitError (List ℚ) :=
  cd.boom_lengths.mapM (fun v => v.to_distance)

/-- CapacityData::capacity_points(boom_idx): convert a whole row to
(feet, pounds) pairs.  The source indexes `data[boom_idx]` directly;
all call sites pass an index below `boom_lengths.len()`. -/
def CapacityData.capacity_points (cd : CapacityData) (boom_idx : ℕ) :
    Except UnitError (List (ℚ × ℚ)) :=
  (cd.data.getD boom_idx []).mapM (fun p => do
    let r ← p.1.to_distance
    let w ← p.2.to_mass
    pure (r, w))

/-- LoadChart.  The `configuration` descriptor is omitted: it is only
read by chart matching, which none of the verified lookups touch. -/
structure LoadChart where
  id : String
  description : String
  capacity_data : CapacityData
  notes : List String
deriving DecidableEq

/-- LoadChart::capacity_exact: first boom row within 0.01 ft of the
query, then the first radius point within 0.01 ft inside that row. -/
def LoadChart.capacity_exact (c : LoadChart) (boom_length radius : ℚ) :
    Except LoadChartError ℚ :=
  match c.capacity_data.boom_lengths_ft with
  | .error e => .error (.UnitErr e)
  | .ok booms =>
    match booms.findIdx? (fun b => decide (|b - boom_length| < 1 / 100)) with
    | none => .error (.BoomLengthNotFound boom_length)
    | some boom_idx =>
      match c.capacity_data.capacity_points boom_idx with
      | .error e => .error (.UnitErr e)
      | .ok points =>
        match points.find? (fun p => decide (|p.1 - radius| < 1 / 100)) with
        | some p => .ok p.2
        | none => .error (.RadiusOutOfRange radius)

/-- Last of the maximal elements under `key`, as Rust's
`Iterator::max_by` returns. -/
def maxByLast {α : Type} (key : α → ℚ) : List α → Option α
  | [] => none
  | x :: xs =>
    match maxByLast key xs with
    | none => some x
    | some y => if key y ≥ key x then some y else some x

/-- First of the minimal elements under `key`, as Rust's
`Iterator::min_by` returns. -/
def minByFirst {α : Type} (key : α → ℚ) : List α → Option α
  | [] => none
  | x :: xs =>
    match minByFirst key xs with
    | none => some x
    | some y => if key y < key x then some y else some x

/-- LoadChart::find_boom_bounds: largest row at most `query + 0.1` and
smallest row at least `query - 0.1`, by value over the enumerated list. -/
def LoadChart.find_boom_bounds (c : LoadChart) (boom_length : ℚ) :
    Except LoadChartError (ℕ × ℕ) :=
  match c.capacity_data.boom_lengths_ft with
  | .error e => .error (.UnitErr e)
  | .ok booms =>
    if booms.isEmpty then .error .NoData
    else
      match maxByLast (fun p => p.2)
        (booms.enum.filter (fun p => decide (p.2 ≤ boom_length + 1 / 10))) with
      | none => .error (.BoomLengthNotFound boom_length)
      | some lower =>
        match minByFirst (fun p => p.2)
          (booms.enum.filter (fun p => decide (p.2 ≥ boom_length - 1 / 10))) with
        | none => .error (.BoomLengthNotFound boom_length)
        | some upper => .ok (lower.1, upper.1)

/-- LoadChart::interpolate_radius: bounding radius points by the same
epsilon rule, identical points short-circuit, else linear interpolation. -/
def LoadChart.interpolate_radius (c : LoadChart) (boom_idx : ℕ)
    (radius : ℚ) : Except LoadChartError ℚ :=
  match c.capacity_data.capacity_points boom_idx with
  | .error e => .error (.UnitErr e)
  | .ok points =>
    if points.isEmpty then .error .NoData
    else
      match maxByLast (fun p => p.1)
        (points.filter (fun p => decide (p.1 ≤ radius + 1 / 10))) with
      | none => .error (.RadiusOutOfRange radius)
      | some lower =>
        match minByFirst (fun p => p.1)
          (points.filter (fun p => decide (p.1 ≥ radius - 1 / 10))) with
        | none => .error (.RadiusOutOfRange radius)
        | some upper =>
          if |lower.1 - upper.1| < 1 / 10 then .ok lower.2
          else
            let frac := (radius - lower.1) / (upper.1 - lower.1)
            .ok (lower.2 + frac * (upper.2 - lower.2))

/-- LoadChart::capacity_interpolated: bilinear lookup, radius axis
first within each bounding boom row, then the boom axis. -/
def LoadChart.capacity_interpolated (c : LoadChart)
    (boom_length radius : ℚ) : Except LoadChartError ℚ :=
  match c.find_boom_bounds boom_length with
  | .error e => .error e
  | .ok bounds =>
    match c.interpolate_radius bounds.1 radius with
    | .error e => .error e
    | .ok capacity_lower =>
      match c.interpolate_radius bounds.2 radius with
      | .error e => .error e
      | .ok capacity_upper =>
        if bounds.1 = bounds.2 then .ok capacity_lower
        else
          match c.capacity_data.boom_lengths_ft with
          | .error e => .error (.UnitErr e)
          | .ok booms =>
            let boom_lower_val := booms.getD bounds.1 0
            let boom_upper_val := booms.getD bounds.2 0
            let frac := (boom_length - boom_lower_val) /
              (boom_upper_val - boom_lower_val)
            .ok (capacity_lower + frac * (capacity_upper - capacity_lower))

/-- Spec-side description of "the support with the numerically largest
reaction force, earliest index on ties". -/
def isEarliestArgmax (l : List ℚ) (k : ℕ) : Prop :=
  k < l.length ∧ (∀ j, j < l.length → l.getD j 0 ≤ l.getD k 0) ∧
    (∀ j, j < k → l.getD j 0 < l.getD k 0)

/-- Spec-side description of "the support closest to the load position,
earliest index on ties" (squared distances; sqrt is monotone). -/
def GroundBearingAnalysis.isNearestFirst (A : GroundBearingAnalysis)
    (k : ℕ) : Prop :=
  k < A.support_points.length ∧
  (∀ j, j < A.support_points.length →
    dist2 (A.support_points.getD k default).position A.load_position ≤
      dist2 (A.support_points.getD j default).position A.load_position) ∧
  (∀ j, j < k →
    dist2 (A.support_points.getD k default).position A.load_position <
      dist2 (A.support_points.getD j default).position A.load_position)

/-- Sum of the reaction forces of a result list. -/
def sumForces (rs : List SupportReaction) : ℚ :=
  (rs.map (fun r => r.force)).sum

/-- Test harness operation for the round-trip claim: replace every
support's contact area by the given mat area. -/
def GroundBearingAnalysis.resizeAreas (A : GroundBearingAnalysis) (a : ℚ) :
    GroundBearingAnalysis :=
  { A with support_points :=
      A.support_points.map (fun s => { s with contact_area := a }) }

/-- Centered example layout: four 576 square-inch pads at (±10, 0, ±10),
crane 100000 lb with COG (0, 5, 0), load 50000 lb at (0, 50, 0). -/
def exampleAnalysis : GroundBearingAnalysis :=
  { support_points :=
      [⟨⟨-10, 0, 10⟩, 576, "FL"⟩, ⟨⟨10, 0, 10⟩, 576, "FR"⟩,
       ⟨⟨-10, 0, -10⟩, 576, "RR"⟩, ⟨⟨10, 0, -10⟩, 576, "RL"⟩]
    crane_weight := 100000
    crane_cog := ⟨0, 5, 0⟩
    load_weight := 50000
    load_position := ⟨0, 50, 0⟩ }

/-- Non-rectangular four-support layout: three supports on the right of
the X centerline (average 0) and one far left, combined COG at x = 2/5. -/
def skewedAnalysis : GroundBearingAnalysis :=
  { support_points :=
      [⟨⟨1, 0, 10⟩, 576, "A"⟩, ⟨⟨1, 0, -10⟩, 576, "B"⟩,
       ⟨⟨1, 0, 0⟩, 576, "C"⟩, ⟨⟨-3, 0, 0⟩, 576, "D"⟩]
    crane_weight := 100
    crane_cog := ⟨2 / 5, 0, 0⟩
    load_weight := 0
    load_position := ⟨0, 0, 0⟩ }

/-- Degenerate layout: all four supports colinear on the Z axis, so
`x_span = 0`. -/
def colinearAnalysis : GroundBearingAnalysis :=
  { support_points :=
      [⟨⟨0, 0, -10⟩, 576, "A"⟩, ⟨⟨0, 0, -5⟩, 576, "B"⟩,
       ⟨⟨0, 0, 5⟩, 576, "C"⟩, ⟨⟨0, 0, 10⟩, 576, "D"⟩]
    crane_weight := 1000
    crane_cog := ⟨0, 0, 0⟩
    load_weight := 0
    load_position := ⟨0, 0, 0⟩ }

/-- Five-support analysis with zero crane and load weight; the support
nearest the load is index 1. -/
def zeroWeightAnalysis : GroundBearingAnalysis :=
  { support_points :=
      [⟨⟨10, 0, 0⟩, 1, "S0"⟩, ⟨⟨0, 0, 0⟩, 1, "S1"⟩, ⟨⟨20, 0, 0⟩, 1, "S2"⟩,
       ⟨⟨30, 0, 0⟩, 1, "S3"⟩, ⟨⟨40, 0, 0⟩, 1, "S4"⟩]
    crane_weight := 0
    crane_cog := ⟨0, 0, 0⟩
    load_weight := 0
    load_position := ⟨0, 0, 0⟩ }

/-- Five-support analysis with positive weight; the support nearest the
load position (5, 0, 1) is index 1. -/
def fiveSupportAnalysis : GroundBearingAnalysis :=
  { support_points :=
      [⟨⟨0, 0, 0⟩, 100, "S0"⟩, ⟨⟨5, 0, 0⟩, 100, "S1"⟩, ⟨⟨10, 0, 0⟩, 100, "S2"⟩,
       ⟨⟨0, 0, 5⟩, 100, "S3"⟩, ⟨⟨0, 0, 10⟩, 100, "S4"⟩]
    crane_weight := 1000
    crane_cog := ⟨0, 0, 0⟩
    load_weight := 500
    load_position := ⟨5, 0, 1⟩ }

/-- Centered load on four equal reactions, but the first support has a
much larger pad: the critical (max force) support has the smallest
pressure. -/
def unequalAreaAnalysis : GroundBearingAnalysis :=
  { support_points :=
      [⟨⟨-10, 0, 10⟩, 100, "A"⟩, ⟨⟨10, 0, 10⟩, 1, "B"⟩,
       ⟨⟨-10, 0, -10⟩, 1, "C"⟩, ⟨⟨10, 0, -10⟩, 1, "D"⟩]
    crane_weight := 400
    crane_cog := ⟨0, 0, 0⟩
    load_weight := 0
    load_position := ⟨0, 0, 0⟩ }

/-- Chart with two boom rows only 0.005 ft apart holding different
capacities at the same radius. -/
def closeBoomChart : LoadChart :=
  { id := "cex", description := "close boom rows"
    capacity_data :=
      { boom_lengths := [⟨20, "ft"⟩, ⟨4001 / 200, "ft"⟩]
        data := [[(⟨10, "ft"⟩, ⟨100, "lb"⟩)], [(⟨10, "ft"⟩, ⟨200, "lb"⟩)]] }
    notes := [] }

/-- Metric chart: one boom row at 10 m with a single point at 5 m
carrying 1000 kg. -/
def metricChart : LoadChart :=
  { id := "wit", description := "metric chart"
    capacity_data :=
      { boom_lengths := [⟨10, "m"⟩]
        data := [[(⟨5, "m"⟩, ⟨1000, "kg"⟩)]] }
    notes := [] }

/-- Chart whose single boom row has a third radius point crowded within
the 0.1 ft window of the midpoint of the first two. -/
def crowdedRadiusChart : LoadChart :=
  { id := "cex2", description := "crowded radii"
    capacity_data :=
      { boom_lengths := [⟨20, "ft"⟩]
        data := [[(⟨10, "ft"⟩, ⟨100, "lb"⟩), (⟨253 / 25, "ft"⟩, ⟨200, "lb"⟩),
                  (⟨203 / 20, "ft"⟩, ⟨300, "lb"⟩)]] }
    notes := [] }

/-- Well-separated chart: boom rows 80 and 100 ft, radii 10 ft apart. -/
def separatedChart : LoadChart :=
  { id := "wit2", description := "well separated"
    capacity_data :=
      { boom_lengths := [⟨80, "ft"⟩, ⟨100, "ft"⟩]
        data := [[(⟨20, "ft"⟩, ⟨1000, "lb"⟩), (⟨30, "ft"⟩, ⟨600, "lb"⟩)],
                 [(⟨20, "ft"⟩, ⟨500, "lb"⟩)]] }
    notes := [] }

/-- Support/value pairs the four-point negativity check walks over. -/
def GroundBearingAnalysis.fourPointEntries (A : GroundBearingAnalysis) :
    List (SupportPoint × ℚ) :=
  A.support_points.zip
    (A.fourPointReactionValues A.combinedCog A.totalWeight)

/-- Result of `calculate_reactions` on `exampleAnalysis`: an even
37500 lb split, 3125/48 psi everywhere, critical support 0. -/
def exampleResult : GroundBearingResult :=
  { reactions :=
      [⟨"FL", 37500, 3125 / 48, 576⟩, ⟨"FR", 37500, 3125 / 48, 576⟩,
       ⟨"RR", 37500, 3125 / 48, 576⟩, ⟨"RL", 37500, 3125 / 48, 576⟩]
    max_reaction := 37500
    max_pressure := 3125 / 48
    critical_support_index := 0 }

/-- Extreme side load (the spec's Test 11 shape): 50000 lb at
(80, 50, 0) over a 20 by 20 ft base tips the crane at support FL. -/
def unstableAnalysis : GroundBearingAnalysis :=
  { support_points :=
      [⟨⟨-10, 0, 10⟩, 576, "FL"⟩, ⟨⟨10, 0, 10⟩, 576, "FR"⟩,
       ⟨⟨-10, 0, -10⟩, 576, "RR"⟩, ⟨⟨10, 0, -10⟩, 576, "RL"⟩]
    crane_weight := 100000
    crane_cog := ⟨0, 8, 0⟩
    load_weight := 50000
    load_position := ⟨80, 50, 0⟩ }

/-- Result of `calculate_reactions` on `unequalAreaAnalysis`. -/
def uaResult : GroundBearingResult :=
  { reactions :=
      [⟨"A", 100, 1, 100⟩, ⟨"B", 100, 100, 1⟩,
       ⟨"C", 100, 100, 1⟩, ⟨"D", 100, 100, 1⟩]
    max_reaction := 100
    max_pressure := 1
    critical_support_index := 0 }


theorem getD_map_of_lt {α β : Type} (f : α → β) (l : List α) (n : ℕ)
    (hn : n < l.length) (d : β) (d2 : α) :
    (l.map f).getD n d = f (l.getD n d2) := by
  induction l generalizing n with
  | nil => simp at hn
  | cons a t ih =>
    cases n with
    | zero => simp
    | succ m =>
      simp only [List.map_cons, List.getD_cons_succ]
      exact ih m (by simpa using hn)

theorem getD_zip_of_lt {α β : Type} (l : List α) (v : List β) (n : ℕ)
    (hn : n < l.length) (hlen : l.length = v.length) (da : α) (db : β) :
    (l.zip v).getD n (da, db) = (l.getD n da, v.getD n db) := by
  induction l generalizing v n with
  | nil => simp at hn
  | cons a t ih =>
    cases v with
    | nil => simp at hlen
    | cons b w =>
      cases n with
      | zero => simp [List.zip_cons_cons]
      | succ m =>
        simp only [List.zip_cons_cons, List.getD_cons_succ]
        exact ih w m (by simpa using hn) (by simpa using hlen)

theorem getD_enumFrom_of_lt {α : Type} (l : List α) (k n : ℕ)
    (hn : n < l.length) (dp : ℕ × α) (d2 : α) :
    (l.enumFrom k).getD n dp = (k + n, l.getD n d2) := by
  induction l generalizing k n with
  | nil => simp at hn
  | cons a t ih =>
    cases n with
    | zero => simp [List.enumFrom]
    | succ m =>
      have hm : m < t.length := by simpa using hn
      simp only [List.enumFrom, List.getD_cons_succ]
      rw [ih (k + 1) m hm]
      have : k + 1 + m = k + (m + 1) := by omega
      rw [this]

theorem mem_enumFrom_spec {α : Type} {l : List α} {k : ℕ} {p : ℕ × α}
    (hp : p ∈ l.enumFrom k) (d : α) :
    k ≤ p.1 ∧ p.1 - k < l.length ∧ p.2 = l.getD (p.1 - k) d := by
  induction l generalizing k with
  | nil => simp [List.enumFrom] at hp
  | cons a t ih =>
    simp only [List.enumFrom, List.mem_cons] at hp
    rcases hp with h | h
    · subst h; simp
    · obtain ⟨h1, h2, h3⟩ := ih h
      refine ⟨by omega, by simp only [List.length_cons]; omega, ?_⟩
      have hk : p.1 - k = (p.1 - (k + 1)) + 1 := by omega
      rw [hk, List.getD_cons_succ]
      exact h3

theorem enumFrom_mem_of_lt {α : Type} (l : List α) (k n : ℕ)
    (hn : n < l.length) (d : α) : (k + n, l.getD n d) ∈ l.enumFrom k := by
  induction l generalizing k n with
  | nil => simp at hn
  | cons a t ih =>
    cases n with
    | zero => simp [List.enumFrom]
    | succ m =>
      have hm : m < t.length := by simpa using hn
      have := ih (k + 1) m hm
      simp only [List.enumFrom, List.mem_cons, List.getD_cons_succ]
      right
      have hk : k + (m + 1) = k + 1 + m := by omega
      rw [hk]
      exact this

theorem reactionCheckLoop_ok {l : List (SupportPoint × ℚ)} {v : List ℚ}
    (h : reactionCheckLoop l = .ok v) :
    v = l.map (fun p => p.2) ∧ ∀ p ∈ l, 0 ≤ p.2 := by
  induction l generalizing v with
  | nil =>
    simp only [reactionCheckLoop, Except.ok.injEq] at h
    subst h; simp
  | cons a t ih =>
    obtain ⟨s, r⟩ := a
    simp only [reactionCheckLoop] at h
    by_cases hr : r < 0
    · simp [hr] at h
    · rw [if_neg hr] at h
      cases ht : reactionCheckLoop t with
      | error e => rw [ht] at h; cases h
      | ok tail =>
        rw [ht] at h
        simp only [Except.ok.injEq] at h
        obtain ⟨h1, h2⟩ := ih ht
        subst h h1
        refine ⟨by simp, ?_⟩
        intro p hp
        rcases List.mem_cons.mp hp with hp | hp
        · subst hp; exact le_of_not_lt hr
        · exact h2 p hp

theorem reactionCheckLoop_ok_of {l : List (SupportPoint × ℚ)}
    (h : ∀ p ∈ l, 0 ≤ p.2) :
    reactionCheckLoop l = .ok (l.map (fun p => p.2)) := by
  induction l with
  | nil => simp [reactionCheckLoop]
  | cons a t ih =>
    obtain ⟨s, r⟩ := a
    have hr : ¬ r < 0 := not_lt.mpr (h (s, r) (by simp))
    have ht := ih (fun p hp => h p (List.mem_cons_of_mem _ hp))
    simp [reactionCheckLoop, hr, ht]

theorem reactionCheckLoop_firstNeg {l : List (SupportPoint × ℚ)}
    {s : SupportPoint} (h : firstNegative l = some s) :
    reactionCheckLoop l = .error (.UnstableConfiguration s.name) := by
  induction l with
  | nil => simp [firstNegative] at h
  | cons a t ih =>
    obtain ⟨s0, r⟩ := a
    by_cases hr : r < 0
    · simp only [firstNegative, if_pos hr, Option.some.injEq] at h
      subst h
      simp [reactionCheckLoop, hr]
    · simp only [firstNegative, if_neg hr] at h
      simp [reactionCheckLoop, hr, ih h]

theorem reactionCheckLoop_error_shape {l : List (SupportPoint × ℚ)}
    {e : GroundBearingError} (h : reactionCheckLoop l = .error e) :
    ∃ nm, e = .UnstableConfiguration nm := by
  induction l generalizing e with
  | nil => simp [reactionCheckLoop] at h
  | cons a t ih =>
    obtain ⟨s, r⟩ := a
    simp only [reactionCheckLoop] at h
    by_cases hr : r < 0
    · rw [if_pos hr] at h
      exact ⟨s.name, by cases h; rfl⟩
    · rw [if_neg hr] at h
      cases ht : reactionCheckLoop t with
      | error e2 =>
        rw [ht] at h
        cases h
        exact ih ht
      | ok tail => rw [ht] at h; cases h

theorem firstNegative_of_neg {l : List (SupportPoint × ℚ)} {j : ℕ}
    (hj : j < l.length) (hneg : (l.getD j default).2 < 0) :
    ∃ s, firstNegative l = some s := by
  induction l generalizing j with
  | nil => simp at hj
  | cons a t ih =>
    obtain ⟨s0, r⟩ := a
    by_cases hr : r < 0
    · exact ⟨s0, by simp [firstNegative, hr]⟩
    · cases j with
      | zero => simp at hneg; exact absurd hneg hr
      | succ m =>
        obtain ⟨s, hs⟩ := ih (j := m) (by simpa using hj)
          (by simpa using hneg)
        exact ⟨s, by simp [firstNegative, hr, hs]⟩

theorem getD_mem_of_lt {α : Type} (l : List α) (n : ℕ) (hn : n < l.length)
    (d : α) : l.getD n d ∈ l := by
  induction l generalizing n with
  | nil => simp at hn
  | cons a t ih =>
    cases n with
    | zero => simp
    | succ m => exact List.mem_cons_of_mem _ (ih m (by simpa using hn))

theorem pressureLoop_cons_snd (s : SupportPoint) (r : ℚ)
    (t : List (SupportPoint × ℚ)) (i : ℕ) (mR mP : ℚ) (c : ℕ) :
    (pressureLoop ((s, r) :: t) i mR mP c).2 =
      if r > mR then (pressureLoop t (i + 1) r (r / s.contact_area) i).2
      else (pressureLoop t (i + 1) mR mP c).2 := by
  simp only [pressureLoop]
  split <;> rfl

theorem pressureLoop_fst (l : List (SupportPoint × ℚ)) (i : ℕ)
    (mR mP : ℚ) (c : ℕ) :
    (pressureLoop l i mR mP c).1 = l.map (fun p =>
      ⟨p.1.name, p.2, p.2 / p.1.contact_area, p.1.contact_area⟩) := by
  induction l generalizing i mR mP c with
  | nil => simp [pressureLoop]
  | cons a t ih =>
    obtain ⟨s, r⟩ := a
    simp only [pressureLoop, List.map_cons]
    split <;> simp [ih]

theorem pressureLoop_spec (l : List (SupportPoint × ℚ)) (i : ℕ)
    (mR mP : ℚ) (c : ℕ) :
    ((pressureLoop l i mR mP c).2 = (mR, mP, c) ∧ ∀ p ∈ l, p.2 ≤ mR) ∨
    (∃ j, j < l.length ∧
      (pressureLoop l i mR mP c).2.2.2 = i + j ∧
      (pressureLoop l i mR mP c).2.1 = (l.getD j default).2 ∧
      (pressureLoop l i mR mP c).2.2.1 =
        (l.getD j default).2 / (l.getD j default).1.contact_area ∧
      mR < (l.getD j default).2 ∧
      (∀ k, k < l.length → (l.getD k default).2 ≤ (l.getD j default).2) ∧
      (∀ k, k < j → (l.getD k default).2 < (l.getD j default).2)) := by
  induction l generalizing i mR mP c with
  | nil => left; simp [pressureLoop]
  | cons a t ih =>
    obtain ⟨s, r⟩ := a
    rw [pressureLoop_cons_snd]
    by_cases hr : r > mR
    · rw [if_pos hr]
      rcases ih (i + 1) r (r / s.contact_area) i with
        ⟨heq, hall⟩ | ⟨j, hj, hcrit, hmR, hmP, hlt, hmax, hstrict⟩
      · right
        refine ⟨0, by simp, ?_, ?_, ?_, by simpa using hr, ?_, by omega⟩
        · simp [heq]
        · simp [heq]
        · simp [heq]
        · intro k hk
          cases k with
          | zero => simp
          | succ m =>
            simp only [List.getD_cons_succ, List.getD_cons_zero]
            have hm : m < t.length := by simpa using hk
            exact hall _ (getD_mem_of_lt t m hm default)
      · right
        refine ⟨j + 1, by simpa using hj, ?_, ?_, ?_, ?_, ?_, ?_⟩
        · rw [hcrit]; omega
        · rw [hmR]; simp
        · rw [hmP]; simp
        · simp only [List.getD_cons_succ]
          exact lt_trans hr hlt
        · intro k hk
          cases k with
          | zero =>
            simp only [List.getD_cons_zero, List.getD_cons_succ]
            exact le_of_lt hlt
          | succ m =>
            simp only [List.getD_cons_succ]
            exact hmax m (by simpa using hk)
        · intro k hk
          cases k with
          | zero =>
            simp only [List.getD_cons_zero, List.getD_cons_succ]
            exact hlt
          | succ m =>
            simp only [List.getD_cons_succ]
            exact hstrict m (by omega)
    · rw [if_neg hr]
      rcases ih (i + 1) mR mP c with
        ⟨heq, hall⟩ | ⟨j, hj, hcrit, hmR, hmP, hlt, hmax, hstrict⟩
      · left
        refine ⟨heq, ?_⟩
        intro p hp
        rcases List.mem_cons.mp hp with hp | hp
        · subst hp; exact not_lt.mp hr
        · exact hall p hp
      · right
        refine ⟨j + 1, by simpa using hj, ?_, ?_, ?_, ?_, ?_, ?_⟩
        · rw [hcrit]; omega
        · rw [hmR]; simp
        · rw [hmP]; simp
        · simp only [List.getD_cons_succ]
          exact hlt
        · intro k hk
          cases k with
          | zero =>
            simp only [List.getD_cons_zero, List.getD_cons_succ]
            exact le_of_lt (lt_of_le_of_lt (not_lt.mp hr) hlt)
          | succ m =>
            simp only [List.getD_cons_succ]
            exact hmax m (by simpa using hk)
        · intro k hk
          cases k with
          | zero =>
            simp only [List.getD_cons_zero, List.getD_cons_succ]
            exact lt_of_le_of_lt (not_lt.mp hr) hlt
          | succ m =>
            simp only [List.getD_cons_succ]
            exact hstrict m (by omega)

theorem pressureLoop_snd_congr (l1 l2 : List (SupportPoint × ℚ))
    (hmap : l1.map (fun p => p.2) = l2.map (fun p => p.2)) (i : ℕ)
    (mR mP1 mP2 : ℚ) (c : ℕ) :
    (pressureLoop l1 i mR mP1 c).2.1 = (pressureLoop l2 i mR mP2 c).2.1 ∧
    (pressureLoop l1 i mR mP1 c).2.2.2 = (pressureLoop l2 i mR mP2 c).2.2.2 := by
  induction l1 generalizing l2 i mR mP1 mP2 c with
  | nil =>
    cases l2 with
    | nil => simp [pressureLoop]
    | cons b w => simp at hmap
  | cons a t ih =>
    cases l2 with
    | nil => simp at hmap
    | cons b w =>
      obtain ⟨s1, r1⟩ := a
      obtain ⟨s2, r2⟩ := b
      simp only [List.map_cons, List.cons.injEq] at hmap
      obtain ⟨hr12, hmap2⟩ := hmap
      subst hr12
      rw [pressureLoop_cons_snd, pressureLoop_cons_snd]
      by_cases hr : r1 > mR
      · rw [if_pos hr, if_pos hr]
        exact ih w hmap2 (i + 1) r1 _ _ i
      · rw [if_neg hr, if_neg hr]
        exact ih w hmap2 (i + 1) mR _ _ c

theorem nearestAux_spec (load : Point3) (l : List SupportPoint) (i : ℕ)
    (m : ℚ) (best : ℕ) :
    (nearestAux load l i (some m) best = best ∧
      ∀ s ∈ l, m ≤ dist2 s.position load) ∨
    (∃ j, j < l.length ∧ nearestAux load l i (some m) best = i + j ∧
      dist2 ((l.getD j default).position) load < m ∧
      (∀ k, k < l.length → dist2 ((l.getD j default).position) load ≤
        dist2 ((l.getD k default).position) load) ∧
      (∀ k, k < j → dist2 ((l.getD j default).position) load <
        dist2 ((l.getD k default).position) load)) := by
  induction l generalizing i m best with
  | nil => left; simp [nearestAux]
  | cons s t ih =>
    by_cases hd : dist2 s.position load < m
    · have hstep : nearestAux load (s :: t) i (some m) best =
          nearestAux load t (i + 1) (some (dist2 s.position load)) i := by
        simp [nearestAux, hd]
      rcases ih (i + 1) (dist2 s.position load) i with
        ⟨heq, hall⟩ | ⟨j, hj, hout, hlt, hmin, hstrict⟩
      · right
        refine ⟨0, by simp, ?_, by simpa using hd, ?_, by omega⟩
        · rw [hstep, heq]; omega
        · intro k hk
          cases k with
          | zero => simp
          | succ q =>
            simp only [List.getD_cons_succ, List.getD_cons_zero]
            exact hall _ (getD_mem_of_lt t q (by simpa using hk) default)
      · right
        refine ⟨j + 1, by simpa using hj, ?_, ?_, ?_, ?_⟩
        · rw [hstep, hout]; omega
        · simp only [List.getD_cons_succ]
          exact lt_trans hlt hd
        · intro k hk
          cases k with
          | zero =>
            simp only [List.getD_cons_succ, List.getD_cons_zero]
            exact le_of_lt hlt
          | succ q =>
            simp only [List.getD_cons_succ]
            exact hmin q (by simpa using hk)
        · intro k hk
          cases k with
          | zero =>
            simp only [List.getD_cons_succ, List.getD_cons_zero]
            exact hlt
          | succ q =>
            simp only [List.getD_cons_succ]
            exact hstrict q (by omega)
    · have hstep : nearestAux load (s :: t) i (some m) best =
          nearestAux load t (i + 1) (some m) best := by
        simp [nearestAux, hd]
      rcases ih (i + 1) m best with
        ⟨heq, hall⟩ | ⟨j, hj, hout, hlt, hmin, hstrict⟩
      · left
        refine ⟨by rw [hstep, heq], ?_⟩
        intro p hp
        rcases List.mem_cons.mp hp with hp | hp
        · subst hp; exact not_lt.mp hd
        · exact hall p hp
      · right
        refine ⟨j + 1, by simpa using hj, ?_, ?_, ?_, ?_⟩
        · rw [hstep, hout]; omega
        · simp only [List.getD_cons_succ]
          exact hlt
        · intro k hk
          cases k with
          | zero =>
            simp only [List.getD_cons_succ, List.getD_cons_zero]
            exact le_of_lt (lt_of_lt_of_le hlt (not_lt.mp hd))
          | succ q =>
            simp only [List.getD_cons_succ]
            exact hmin q (by simpa using hk)
        · intro k hk
          cases k with
          | zero =>
            simp only [List.getD_cons_succ, List.getD_cons_zero]
            exact lt_of_lt_of_le hlt (not_lt.mp hd)
          | succ q =>
            simp only [List.getD_cons_succ]
            exact hstrict q (by omega)

theorem nearestSupportIdx_spec (A : GroundBearingAnalysis)
    (hne : A.support_points ≠ []) : A.isNearestFirst A.nearestSupportIdx := by
  obtain ⟨s, t, hst⟩ : ∃ s t, A.support_points = s :: t := by
    cases h : A.support_points with
    | nil => exact absurd h hne
    | cons a b => exact ⟨a, b, rfl⟩
  unfold GroundBearingAnalysis.isNearestFirst GroundBearingAnalysis.nearestSupportIdx
  rw [hst]
  have hstep : nearestAux A.load_position (s :: t) 0 none 0 =
      nearestAux A.load_position t 1 (some (dist2 s.position A.load_position)) 0 := by
    simp [nearestAux]
  rw [hstep]
  rcases nearestAux_spec A.load_position t 1 (dist2 s.position A.load_position) 0 with
    ⟨heq, hall⟩ | ⟨j, hj, hout, hlt, hmin, hstrict⟩
  · rw [heq]
    refine ⟨by simp, ?_, by omega⟩
    intro k hk
    cases k with
    | zero => simp
    | succ q =>
      simp only [List.getD_cons_succ, List.getD_cons_zero]
      exact hall _ (getD_mem_of_lt t q (by simpa using hk) default)
  · rw [hout]
    have h1j : 1 + j = j + 1 := by omega
    rw [h1j]
    refine ⟨by simpa using hj, ?_, ?_⟩
    · intro k hk
      cases k with
      | zero =>
        simp only [List.getD_cons_succ, List.getD_cons_zero]
        exact le_of_lt hlt
      | succ q =>
        simp only [List.getD_cons_succ]
        exact hmin q (by simpa using hk)
    · intro k hk
      cases k with
      | zero =>
        simp only [List.getD_cons_succ, List.getD_cons_zero]
        exact hlt
      | succ q =>
        simp only [List.getD_cons_succ]
        exact hstrict q (by omega)

theorem maxByLast_eq_none {α : Type} (key : α → ℚ) {l : List α}
    (h : maxByLast key l = none) : l = [] := by
  cases l with
  | nil => rfl
  | cons a t =>
    cases ht : maxByLast key t with
    | none => simp [maxByLast, ht] at h
    | some y =>
      simp only [maxByLast, ht] at h
      split at h <;> simp_all

theorem maxByLast_mem {α : Type} (key : α → ℚ) {l : List α} {x : α}
    (h : maxByLast key l = some x) : x ∈ l := by
  induction l generalizing x with
  | nil => simp [maxByLast] at h
  | cons a t ih =>
    cases ht : maxByLast key t with
    | none =>
      simp only [maxByLast, ht, Option.some.injEq] at h
      subst h; simp
    | some y =>
      simp only [maxByLast, ht] at h
      by_cases hk : key y ≥ key a
      · rw [if_pos hk] at h
        cases h
        exact List.mem_cons_of_mem _ (ih ht)
      · rw [if_neg hk] at h
        cases h
        simp

theorem maxByLast_eq_some {α : Type} (key : α → ℚ) {l : List α} {x : α}
    (hx : x ∈ l) (hmax : ∀ y ∈ l, key y ≤ key x)
    (huniq : ∀ y ∈ l, key y = key x → y = x) : maxByLast key l = some x := by
  induction l with
  | nil => simp at hx
  | cons a t ih =>
    cases ht : maxByLast key t with
    | none =>
      have hte : t = [] := maxByLast_eq_none key ht
      subst hte
      simp only [List.mem_singleton] at hx
      subst hx
      simp [maxByLast]
    | some y =>
      have hy : y ∈ t := maxByLast_mem key ht
      rcases List.mem_cons.mp hx with hxa | hxt
      · subst hxa
        simp only [maxByLast, ht]
        by_cases hk : key y ≥ key x
        · have hyx : y = x := huniq y (List.mem_cons_of_mem _ hy)
            (le_antisymm (hmax y (List.mem_cons_of_mem _ hy)) hk)
          rw [if_pos hk, hyx]
        · rw [if_neg hk]
      · have hrec : maxByLast key t = some x :=
          ih hxt (fun z hz => hmax z (List.mem_cons_of_mem _ hz))
            (fun z hz hzk => huniq z (List.mem_cons_of_mem _ hz) hzk)
        rw [ht] at hrec
        cases hrec
        simp only [maxByLast, ht]
        rw [if_pos (hmax a (by simp))]

theorem minByFirst_eq_none {α : Type} (key : α → ℚ) {l : List α}
    (h : minByFirst key l = none) : l = [] := by
  cases l with
  | nil => rfl
  | cons a t =>
    cases ht : minByFirst key t with
    | none => simp [minByFirst, ht] at h
    | some y =>
      simp only [minByFirst, ht] at h
      split at h <;> simp_all

theorem minByFirst_mem {α : Type} (key : α → ℚ) {l : List α} {x : α}
    (h : minByFirst key l = some x) : x ∈ l := by
  induction l generalizing x with
  | nil => simp [minByFirst] at h
  | cons a t ih =>
    cases ht : minByFirst key t with
    | none =>
      simp only [minByFirst, ht, Option.some.injEq] at h
      subst h; simp
    | some y =>
      simp only [minByFirst, ht] at h
      by_cases hk : key y < key a
      · rw [if_pos hk] at h
        cases h
        exact List.mem_cons_of_mem _ (ih ht)
      · rw [if_neg hk] at h
        cases h
        simp

theorem minByFirst_eq_some {α : Type} (key : α → ℚ) {l : List α} {x : α}
    (hx : x ∈ l) (hmin : ∀ y ∈ l, key x ≤ key y)
    (huniq : ∀ y ∈ l, key y = key x → y = x) : minByFirst key l = some x := by
  induction l with
  | nil => simp at hx
  | cons a t ih =>
    cases ht : minByFirst key t with
    | none =>
      have hte : t = [] := minByFirst_eq_none key ht
      subst hte
      simp only [List.mem_singleton] at hx
      subst hx
      simp [minByFirst]
    | some y =>
      have hy : y ∈ t := minByFirst_mem key ht
      rcases List.mem_cons.mp hx with hxa | hxt
      · subst hxa
        simp only [minByFirst, ht]
        have hk : ¬ key y < key x := not_lt.mpr (hmin y (List.mem_cons_of_mem _ hy))
        rw [if_neg hk]
      · have hrec : minByFirst key t = some x :=
          ih hxt (fun z hz => hmin z (List.mem_cons_of_mem _ hz))
            (fun z hz hzk => huniq z (List.mem_cons_of_mem _ hz) hzk)
        rw [ht] at hrec
        cases hrec
        simp only [minByFirst, ht]
        by_cases hk : key x < key a
        · rw [if_pos hk]
        · rw [if_neg hk]
          have hax : key a = key x :=
            le_antisymm (not_lt.mp hk) (hmin a (by simp))
          rw [huniq a (by simp) hax]

theorem findIdx?_eq_some_of {α : Type} (p : α → Bool) (l : List α)
    (i start : ℕ) (d : α) (hi : i < l.length) (hp : p (l.getD i d) = true)
    (hfirst : ∀ j, j < i → p (l.getD j d) = false) :
    l.findIdx? p start = some (start + i) := by
  induction l generalizing i start with
  | nil => simp at hi
  | cons a t ih =>
    cases i with
    | zero =>
      simp only [List.getD_cons_zero] at hp
      simp [List.findIdx?_cons, hp]
    | succ m =>
      have ha : p a = false := by
        have := hfirst 0 (by omega)
        simpa using this
      rw [List.findIdx?_cons, ha]
      simp only [Bool.false_eq_true, if_false]
      have := ih m (start + 1) (by simpa using hi) (by simpa using hp)
        (fun j hj => by
          have := hfirst (j + 1) (by omega)
          simpa using this)
      rw [this]
      congr 1
      omega

theorem findIdx?_eq_none_of {α : Type} (p : α → Bool) (l : List α)
    (start : ℕ) (d : α) (h : ∀ j, j < l.length → p (l.getD j d) = false) :
    l.findIdx? p start = none := by
  induction l generalizing start with
  | nil => simp [List.findIdx?]
  | cons a t ih =>
    have ha : p a = false := by
      have := h 0 (by simp)
      simpa using this
    rw [List.findIdx?_cons, ha]
    simp only [Bool.false_eq_true, if_false]
    exact ih (start + 1) (fun j hj => by
      have := h (j + 1) (by simpa using hj)
      simpa using this)

theorem find?_eq_some_of {α : Type} (p : α → Bool) (l : List α) (k : ℕ)
    (d : α) (hk : k < l.length) (hp : p (l.getD k d) = true)
    (hfirst : ∀ j, j < k → p (l.getD j d) = false) :
    l.find? p = some (l.getD k d) := by
  induction l generalizing k with
  | nil => simp at hk
  | cons a t ih =>
    cases k with
    | zero =>
      simp only [List.getD_cons_zero] at hp ⊢
      simp [List.find?_cons, hp]
    | succ m =>
      have ha : p a = false := by
        have := hfirst 0 (by omega)
        simpa using this
      simp only [List.find?_cons, ha, List.getD_cons_succ]
      exact ih m (by simpa using hk) (by simpa using hp)
        (fun j hj => by
          have := hfirst (j + 1) (by omega)
          simpa using this)

theorem find?_eq_none_of {α : Type} (p : α → Bool) (l : List α) (d : α)
    (h : ∀ j, j < l.length → p (l.getD j d) = false) :
    l.find? p = none := by
  induction l with
  | nil => simp
  | cons a t ih =>
    have ha : p a = false := by
      have := h 0 (by simp)
      simpa using this
    simp only [List.find?_cons, ha]
    exact ih (fun j hj => by
      have := h (j + 1) (by simpa using hj)
      simpa using this)

theorem zip_map_snd_eq {α β : Type} (l : List α) (v : List β)
    (hlen : l.length = v.length) : (l.zip v).map (fun p => p.2) = v := by
  induction l generalizing v with
  | nil =>
    cases v with
    | nil => simp
    | cons b w => simp at hlen
  | cons a t ih =>
    cases v with
    | nil => simp at hlen
    | cons b w => simp [List.zip_cons_cons, ih w (by simpa using hlen)]

theorem calculate_reactions_four (A : GroundBearingAnalysis)
    (h4 : A.support_points.length = 4) :
    A.calculate_reactions = A.calculate_four_point_reactions := by
  unfold GroundBearingAnalysis.calculate_reactions
  rw [if_neg (by omega), if_pos h4]

theorem calculate_reactions_general (A : GroundBearingAnalysis)
    (h3 : 3 ≤ A.support_points.length) (h4 : A.support_points.length ≠ 4) :
    A.calculate_reactions = A.calculate_general_reactions := by
  unfold GroundBearingAnalysis.calculate_reactions
  rw [if_neg (by omega), if_neg h4]

theorem from_moments_ok_elim {A : GroundBearingAnalysis} {cog : Point3}
    {W : ℚ} {vals : List ℚ}
    (h : A.calculate_reactions_from_moments cog W = .ok vals) :
    A.support_points.length = 4 ∧ vals = A.fourPointReactionValues cog W ∧
      ∀ v ∈ vals, 0 ≤ v := by
  unfold GroundBearingAnalysis.calculate_reactions_from_moments at h
  by_cases hlen : A.support_points.length ≠ 4
  · rw [if_pos hlen] at h; cases h
  · rw [if_neg hlen] at h
    have hlen4 : A.support_points.length = 4 := by omega
    obtain ⟨hv, hnn⟩ := reactionCheckLoop_ok h
    have hlenv : A.support_points.length =
        (A.fourPointReactionValues cog W).length := by
      simp [GroundBearingAnalysis.fourPointReactionValues]
    rw [zip_map_snd_eq _ _ hlenv] at hv
    refine ⟨hlen4, hv, ?_⟩
    intro v hvmem
    subst hv
    obtain ⟨p, hpmem, hp2⟩ : ∃ p ∈ A.support_points.zip
        (A.fourPointReactionValues cog W), p.2 = v := by
      have : v ∈ (A.support_points.zip
          (A.fourPointReactionValues cog W)).map (fun p => p.2) := by
        rw [zip_map_snd_eq _ _ hlenv]; exact hvmem
      obtain ⟨p, hp, hpe⟩ := List.mem_map.mp this
      exact ⟨p, hp, hpe⟩
    rw [← hp2]
    exact hnn p hpmem

theorem from_moments_vals_check {A : GroundBearingAnalysis} {cog : Point3}
    {W : ℚ} (h4 : A.support_points.length = 4) :
    A.calculate_reactions_from_moments cog W =
      reactionCheckLoop (A.support_points.zip
        (A.fourPointReactionValues cog W)) := by
  unfold GroundBearingAnalysis.calculate_reactions_from_moments
  rw [if_neg (by omega)]

theorem four_point_ok_elim {A : GroundBearingAnalysis}
    {r : GroundBearingResult}
    (hok : A.calculate_four_point_reactions = .ok r) :
    A.calculate_reactions_from_moments A.combinedCog A.totalWeight =
      .ok (A.fourPointReactionValues A.combinedCog A.totalWeight) ∧
    r.reactions = (pressureLoop (A.support_points.zip
      (A.fourPointReactionValues A.combinedCog A.totalWeight)) 0 0 0 0).1 ∧
    r.max_reaction = (pressureLoop (A.support_points.zip
      (A.fourPointReactionValues A.combinedCog A.totalWeight)) 0 0 0 0).2.1 ∧
    r.max_pressure = (pressureLoop (A.support_points.zip
      (A.fourPointReactionValues A.combinedCog A.totalWeight)) 0 0 0 0).2.2.1 ∧
    r.critical_support_index = (pressureLoop (A.support_points.zip
      (A.fourPointReactionValues A.combinedCog A.totalWeight)) 0 0 0 0).2.2.2 := by
  unfold GroundBearingAnalysis.calculate_four_point_reactions at hok
  dsimp only at hok
  cases hm : A.calculate_reactions_from_moments A.combinedCog A.totalWeight with
  | error e => rw [hm] at hok; cases hok
  | ok vals =>
    obtain ⟨h4, hv, hnn⟩ := from_moments_ok_elim hm
    rw [hm] at hok
    simp only [Except.ok.injEq] at hok
    subst hok
    subst hv
    exact ⟨rfl, rfl, rfl, rfl, rfl⟩

theorem four_point_error_shape {A : GroundBearingAnalysis}
    {e : GroundBearingError} (h4 : A.support_points.length = 4)
    (herr : A.calculate_four_point_reactions = .error e) :
    ∃ nm, e = .UnstableConfiguration nm := by
  unfold GroundBearingAnalysis.calculate_four_point_reactions at herr
  dsimp only at herr
  rw [from_moments_vals_check h4] at herr
  cases hm : reactionCheckLoop (A.support_points.zip
      (A.fourPointReactionValues A.combinedCog A.totalWeight)) with
  | error e2 =>
    rw [hm] at herr
    cases herr
    exact reactionCheckLoop_error_shape hm
  | ok vals => rw [hm] at herr; cases herr

theorem length_eq_four {α : Type} {l : List α} (h : l.length = 4) :
    ∃ a b c d, l = [a, b, c, d] := by
  match l, h with
  | [a, b, c, d], _ => exact ⟨a, b, c, d, rfl⟩

theorem sum_four_signed (P0 P1 P2 P3 : Prop) [Decidable P0] [Decidable P1]
    [Decidable P2] [Decidable P3] (e f : ℚ) (hf : f = -e)
    (h : (if P0 then (1 : ℕ) else 0) + (if P1 then 1 else 0) +
      (if P2 then 1 else 0) + (if P3 then 1 else 0) = 2) :
    (if P0 then e else f) + (if P1 then e else f) +
      (if P2 then e else f) + (if P3 then e else f) = 0 := by
  subst hf
  by_cases h0 : P0 <;> by_cases h1 : P1 <;> by_cases h2 : P2 <;>
    by_cases h3 : P3 <;> simp_all

theorem pairwise_gap_inj {l : List (ℚ × ℚ)}
    (hp : List.Pairwise (fun p q => p.1 + 1 / 10 < q.1) l) :
    ∀ y ∈ l, ∀ z ∈ l, y.1 = z.1 → y = z := by
  induction l with
  | nil => simp
  | cons a t ih =>
    obtain ⟨ha, ht⟩ := List.pairwise_cons.mp hp
    intro y hy z hz hyz
    rcases List.mem_cons.mp hy with hy1 | hy1 <;>
      rcases List.mem_cons.mp hz with hz1 | hz1
    · rw [hy1, hz1]
    · exfalso
      have h2 := ha z hz1
      rw [hy1] at hyz
      linarith
    · exfalso
      have h2 := ha y hy1
      rw [hz1] at hyz
      linarith
    · exact ih ht y hy1 z hz1 hyz

theorem validate_ok_iff (m : SafetyMargins) : m.validate_ok = true ↔
    (0 < m.warning_factor ∧ m.warning_factor ≤ 1 ∧
     0 < m.shutdown_factor ∧ m.shutdown_factor ≤ 1 ∧
     0 < m.safety_factor ∧ m.safety_factor ≤ 1 ∧
     m.warning_factor < m.shutdown_factor) := by
  unfold SafetyMargins.validate_ok
  simp only [Bool.and_eq_true, Bool.not_eq_true', Bool.or_eq_false_iff,
    decide_eq_false_iff_not, not_le, not_lt]
  tauto

/-- C6: for an enabled MomentLimiter with validated margins and the
constructor's 0.01 epsilon, `check` returns Shutdown exactly above
`effective_shutdown - 0.01`, Warning exactly in the band between the
two epsilon-shifted thresholds, Normal below the warning band, Disabled
whenever the limiter is off; with rated moment 1,000,000 ft-lb and
standard margins, 900,000 gives Warning, 1,100,000 gives Shutdown and
500,000 gives Normal. -/
theorem C6_limiter_classification (L : MomentLimiter)
    (heps : L.epsilon = 1 / 100) (hv : L.margins.validate_ok = true)
    (hrated : 0 ≤ L.rated_moment) :
    (L.enabled = true →
      (∀ m, L.check m = .Shutdown ↔
        L.margins.effective_shutdown L.rated_moment - 1 / 100 < m) ∧
      (∀ m, L.check m = .Warning ↔
        (L.margins.effective_warning L.rated_moment - 1 / 100 < m ∧
          m ≤ L.margins.effective_shutdown L.rated_moment - 1 / 100)) ∧
      (∀ m, L.check m = .Normal ↔
        m ≤ L.margins.effective_warning L.rated_moment - 1 / 100)) ∧
    (L.enabled = false → ∀ m, L.check m = .Disabled) ∧
    ((MomentLimiter.standard 1000000).check 900000 = .Warning ∧
      (MomentLimiter.standard 1000000).check 1100000 = .Shutdown ∧
      (MomentLimiter.standard 1000000).check 500000 = .Normal) := by
  have hWS : L.margins.effective_warning L.rated_moment ≤
      L.margins.effective_shutdown L.rated_moment := by
    obtain ⟨hw0, hw1, hs0, hs1, hf0, hf1, hws⟩ := (validate_ok_iff _).mp hv
    unfold SafetyMargins.effective_warning SafetyMargins.effective_shutdown
    have h1 : L.rated_moment * L.margins.warning_factor ≤
        L.rated_moment * L.margins.shutdown_factor :=
      mul_le_mul_of_nonneg_left (le_of_lt hws) hrated
    exact mul_le_mul_of_nonneg_right h1 (le_of_lt hf0)
  refine ⟨?_, ?_, ?_⟩
  · intro hen
    have hchk : ∀ m, L.check m =
        if L.margins.effective_shutdown L.rated_moment - 1 / 100 < m
        then .Shutdown
        else if L.margins.effective_warning L.rated_moment - 1 / 100 < m
        then .Warning
        else .Normal := by
      intro m
      simp [MomentLimiter.check, hen, heps]
    refine ⟨?_, ?_, ?_⟩ <;> intro m <;> rw [hchk m]
    · split_ifs with h1 h2
      · exact iff_of_true rfl h1
      · exact iff_of_false (by simp) h1
      · exact iff_of_false (by simp) h1
    · split_ifs with h1 h2
      · exact iff_of_false (by simp)
          (fun h => absurd h1 (not_lt.mpr h.2))
      · exact iff_of_true rfl ⟨h2, not_lt.mp h1⟩
      · exact iff_of_false (by simp) (fun h => h2 h.1)
    · split_ifs with h1 h2
      · refine iff_of_false (by simp) (fun hle => ?_)
        have : m ≤ L.margins.effective_shutdown L.rated_moment - 1 / 100 :=
          le_trans hle (by linarith)
        exact absurd h1 (not_lt.mpr this)
      · exact iff_of_false (by simp) (fun hle => absurd h2 (not_lt.mpr hle))
      · exact iff_of_true rfl (not_lt.mp h2)
  · intro hdis m
    simp [MomentLimiter.check, hdis]
  · refine ⟨?_, ?_, ?_⟩ <;>
      norm_num [MomentLimiter.check, MomentLimiter.standard,
        SafetyMargins.standard, SafetyMargins.effective_warning,
        SafetyMargins.effective_shutdown]

/-- C6 witness: the standard limiter at rated moment 1,000,000 ft-lb is
enabled with validated margins, and the theorem instantiates to the
Warning classification of 900,000 ft-lb. -/
theorem C6_witness :
    (MomentLimiter.standard 1000000).check 900000 = .Warning :=
  (C6_limiter_classification (MomentLimiter.standard 1000000) rfl
    (by norm_num [SafetyMargins.validate_ok, MomentLimiter.standard,
      SafetyMargins.standard]) (by norm_num [MomentLimiter.standard])).2.2.1

theorem soil_validation_spec (A : GroundBearingAnalysis)
    (r : GroundBearingResult) (p : ℚ)
    (hok : A.calculate_reactions = .ok r) :
    (A.validate_soil_capacity p = .ok () ↔ r.max_pressure ≤ p) ∧
    (p < r.max_pressure →
      A.validate_soil_capacity p =
        .error (.ExceedsAllowable r.max_pressure p)) := by
  have hval : A.validate_soil_capacity p =
      if r.max_pressure > p
      then .error (.ExceedsAllowable r.max_pressure p) else .ok () := by
    unfold GroundBearingAnalysis.validate_soil_capacity
    rw [hok]
  rw [hval]
  constructor
  · by_cases hc : r.max_pressure > p
    · rw [if_pos hc]
      constructor
      · intro h; cases h
      · intro h; exact absurd hc (not_lt.mpr h)
    · rw [if_neg hc]
      simp [not_lt.mp hc]
  · intro hlt
    rw [if_pos hlt]

/-- C7: given a successful reaction computation, soil validation
succeeds exactly when the computed max pressure does not strictly
exceed the allowable pressure (equality passes), and on failure the
error carries the actual and allowable pressures. -/
theorem C7_soil_validation (A : GroundBearingAnalysis)
    (r : GroundBearingResult) (p : ℚ)
    (hok : A.calculate_reactions = .ok r) :
    (A.validate_soil_capacity p = .ok () ↔ r.max_pressure ≤ p) ∧
    (p < r.max_pressure →
      A.validate_soil_capacity p =
        .error (.ExceedsAllowable r.max_pressure p)) :=
  soil_validation_spec A r p hok

/-- C7 witness: the centered example analysis with allowable pressure
exactly equal to its computed max pressure (3125/48 psi) passes. -/
theorem C7_witness :
    exampleAnalysis.validate_soil_capacity (3125 / 48) = .ok () := by
  have hok : exampleAnalysis.calculate_reactions = .ok exampleResult := by
    norm_num [GroundBearingAnalysis.calculate_reactions,
      GroundBearingAnalysis.calculate_four_point_reactions,
      GroundBearingAnalysis.calculate_reactions_from_moments,
      GroundBearingAnalysis.fourPointReactionValues,
      GroundBearingAnalysis.combinedCog, GroundBearingAnalysis.totalWeight,
      GroundBearingAnalysis.avgX, GroundBearingAnalysis.avgZ,
      GroundBearingAnalysis.xSpan, GroundBearingAnalysis.zSpan,
      GroundBearingAnalysis.supportXs, GroundBearingAnalysis.supportZs,
      listMax, listMin, reactionCheckLoop, pressureLoop,
      exampleAnalysis, exampleResult]
  exact (C7_soil_validation exampleAnalysis exampleResult (3125 / 48)
    hok).1.mpr le_rfl

/-- C4 (amended): the four-point path has no zero-span guard at all;
for any analysis with exactly four supports, `calculate_reactions`
never returns `InvalidConfiguration`, whatever the geometry. -/
theorem C4_no_invalid_configuration (A : GroundBearingAnalysis)
    (h4 : A.support_points.length = 4) (msg : String) :
    A.calculate_reactions ≠ .error (.InvalidConfiguration msg) := by
  intro hcontra
  rw [calculate_reactions_four A h4] at hcontra
  obtain ⟨nm, hnm⟩ := four_point_error_shape h4 hcontra
  cases hnm

/-- C4 counterexample: all four supports colinear on the Z axis give a
zero `x_span`, yet `calculate_reactions` returns Ok instead of the
`InvalidConfiguration` failure the claim demands (in IEEE arithmetic
the same input returns Ok with NaN reactions: 0/0 pollutes every
reaction and the `< 0` tip check is false on NaN). -/
theorem C4_counterexample :
    colinearAnalysis.calculate_reactions.isOk = true ∧
      colinearAnalysis.xSpan = 0 := by
  norm_num [GroundBearingAnalysis.calculate_reactions,
    GroundBearingAnalysis.calculate_four_point_reactions,
    GroundBearingAnalysis.calculate_reactions_from_moments,
    GroundBearingAnalysis.fourPointReactionValues,
    GroundBearingAnalysis.combinedCog, GroundBearingAnalysis.totalWeight,
    GroundBearingAnalysis.avgX, GroundBearingAnalysis.avgZ,
    GroundBearingAnalysis.xSpan, GroundBearingAnalysis.zSpan,
    GroundBearingAnalysis.supportXs, GroundBearingAnalysis.supportZs,
    listMax, listMin, reactionCheckLoop, pressureLoop,
    colinearAnalysis, Except.isOk, Except.toBool]

/-- C4 witness: the colinear degenerate layout (with exactly four
supports) indeed never yields the InvalidConfiguration error. -/
theorem C4_witness :
    colinearAnalysis.calculate_reactions ≠
      .error (.InvalidConfiguration
        "Four-point method requires exactly 4 supports") :=
  C4_no_invalid_configuration colinearAnalysis rfl _

/-- C2: on the four-point path, a successful result never contains a
negative reaction force, and whenever some computed reaction is
negative, `calculate_reactions` fails with `UnstableConfiguration`
naming the first such support (the failure is raised by the moment
solver, before any pressure is computed). -/
theorem C2_negative_reaction_detection (A : GroundBearingAnalysis)
    (h4 : A.support_points.length = 4) :
    (∀ r, A.calculate_reactions = .ok r →
      ∀ sr ∈ r.reactions, 0 ≤ sr.force) ∧
    (∀ s, firstNegative A.fourPointEntries = some s →
      A.calculate_reactions = .error (.UnstableConfiguration s.name)) := by
  rw [calculate_reactions_four A h4]
  constructor
  · intro r hok sr hsr
    obtain ⟨hm, hreac, _, _, _⟩ := four_point_ok_elim hok
    obtain ⟨_, _, hnn⟩ := from_moments_ok_elim hm
    rw [pressureLoop_fst] at hreac
    rw [hreac] at hsr
    obtain ⟨p, hp, hpe⟩ := List.mem_map.mp hsr
    have h2 : p.2 ∈ A.fourPointReactionValues A.combinedCog A.totalWeight := by
      exact (List.of_mem_zip hp).2
    rw [← hpe]
    exact hnn p.2 h2
  · intro s hfn
    unfold GroundBearingAnalysis.calculate_four_point_reactions
    dsimp only
    rw [from_moments_vals_check h4]
    unfold GroundBearingAnalysis.fourPointEntries at hfn
    rw [reactionCheckLoop_firstNeg hfn]

/-- C2 witness: the extreme side-load analysis computes a negative
reaction first at support FL, and `calculate_reactions` reports
`UnstableConfiguration "FL"`. -/
theorem C2_witness :
    unstableAnalysis.calculate_reactions =
      .error (.UnstableConfiguration "FL") := by
  have hfn : firstNegative unstableAnalysis.fourPointEntries =
      some ⟨⟨-10, 0, 10⟩, 576, "FL"⟩ := by
    norm_num [GroundBearingAnalysis.fourPointEntries,
      GroundBearingAnalysis.fourPointReactionValues,
      GroundBearingAnalysis.combinedCog, GroundBearingAnalysis.totalWeight,
      GroundBearingAnalysis.avgX, GroundBearingAnalysis.avgZ,
      GroundBearingAnalysis.xSpan, GroundBearingAnalysis.zSpan,
      GroundBearingAnalysis.supportXs, GroundBearingAnalysis.supportZs,
      listMax, listMin, firstNegative, unstableAnalysis]
  exact (C2_negative_reaction_detection unstableAnalysis rfl).2 _ hfn

theorem general_reactions_fields (A : GroundBearingAnalysis) :
    ∃ r, A.calculate_general_reactions = .ok r ∧
      r.reactions.length = A.support_points.length ∧
      r.critical_support_index = A.nearestSupportIdx ∧
      r.max_reaction = A.totalWeight ∧
      r.max_pressure = A.totalWeight /
        (A.support_points.getD A.nearestSupportIdx default).contact_area ∧
      ∀ k, k < A.support_points.length →
        r.reactions.getD k default =
          ⟨(A.support_points.getD k default).name,
           if k = A.nearestSupportIdx then A.totalWeight else 0,
           (if k = A.nearestSupportIdx then A.totalWeight else 0) /
             (A.support_points.getD k default).contact_area,
           (A.support_points.getD k default).contact_area⟩ := by
  unfold GroundBearingAnalysis.calculate_general_reactions
  dsimp only
  refine ⟨_, rfl, by simp, rfl, rfl, rfl, ?_⟩
  intro k hk
  have hk2 : k < A.support_points.enum.length := by
    rw [List.enum_length]; exact hk
  rw [getD_map_of_lt _ _ k hk2 default (0, default)]
  have : A.support_points.enum.getD k (0, default) =
      (0 + k, A.support_points.getD k default) :=
    getD_enumFrom_of_lt A.support_points 0 k hk (0, default) default
  rw [this]
  simp

/-- C5: with at least three supports and a count other than four, the
general conservative solver always succeeds, assigns the whole combined
weight to the support nearest the load position (first on ties) and
zero force and zero pressure to every other support. -/
theorem C5_general_solver (A : GroundBearingAnalysis)
    (h3 : 3 ≤ A.support_points.length) (h4 : A.support_points.length ≠ 4)
    (_harea : ∀ s ∈ A.support_points, 0 < s.contact_area) :
    ∃ r, A.calculate_reactions = .ok r ∧
      A.isNearestFirst r.critical_support_index ∧
      (r.reactions.getD r.critical_support_index default).force =
        A.crane_weight + A.load_weight ∧
      ∀ j, j < A.support_points.length → j ≠ r.critical_support_index →
        (r.reactions.getD j default).force = 0 ∧
        (r.reactions.getD j default).pressure = 0 := by
  obtain ⟨r, hok, hlen, hcrit, hmR, hmP, hfields⟩ := general_reactions_fields A
  have hne : A.support_points ≠ [] := by
    intro h
    rw [h] at h3
    simp at h3
  have hnear := nearestSupportIdx_spec A hne
  refine ⟨r, ?_, ?_, ?_, ?_⟩
  · rw [calculate_reactions_general A h3 h4]
    exact hok
  · rw [hcrit]; exact hnear
  · rw [hcrit]
    rw [hfields A.nearestSupportIdx hnear.1]
    simp [GroundBearingAnalysis.totalWeight]
  · intro j hj hjc
    rw [hcrit] at hjc
    rw [hfields j hj]
    simp [hjc]

/-- C5 witness: the five-support example succeeds, with the full
1500 lb combined weight carried by support index 1 (nearest the load). -/
theorem C5_witness :
    ∃ r, fiveSupportAnalysis.calculate_reactions = .ok r ∧
      (r.reactions.getD r.critical_support_index default).force = 1500 := by
  obtain ⟨r, hok, _, hforce, _⟩ := C5_general_solver fiveSupportAnalysis
    (by norm_num [fiveSupportAnalysis])
    (by norm_num [fiveSupportAnalysis])
    (by norm_num [fiveSupportAnalysis])
  exact ⟨r, hok, by rw [hforce]; norm_num [fiveSupportAnalysis]⟩

theorem getD_zip_default (l : List SupportPoint) (v : List ℚ) (n : ℕ)
    (hn : n < l.length) (hlen : l.length = v.length) :
    (l.zip v).getD n default = (l.getD n default, v.getD n 0) := by
  induction l generalizing v n with
  | nil => simp at hn
  | cons a t ih =>
    cases v with
    | nil => simp at hlen
    | cons b w =>
      cases n with
      | zero => simp [List.zip_cons_cons]
      | succ m =>
        simp only [List.zip_cons_cons, List.getD_cons_succ]
        exact ih w m (by simpa using hn) (by simpa using hlen)

theorem four_point_fields {A : GroundBearingAnalysis}
    {r : GroundBearingResult}
    (hok : A.calculate_four_point_reactions = .ok r) :
    r.reactions.length = A.support_points.length ∧
    r.reactions.map (fun sr => sr.force) =
      A.fourPointReactionValues A.combinedCog A.totalWeight ∧
    ∀ k, k < A.support_points.length →
      r.reactions.getD k default =
        ⟨(A.support_points.getD k default).name,
         (A.fourPointReactionValues A.combinedCog A.totalWeight).getD k 0,
         (A.fourPointReactionValues A.combinedCog A.totalWeight).getD k 0 /
           (A.support_points.getD k default).contact_area,
         (A.support_points.getD k default).contact_area⟩ := by
  obtain ⟨hm, hreac, _, _, _⟩ := four_point_ok_elim hok
  have hlenv : A.support_points.length =
      (A.fourPointReactionValues A.combinedCog A.totalWeight).length := by
    simp [GroundBearingAnalysis.fourPointReactionValues]
  refine ⟨?_, ?_, ?_⟩
  · rw [hreac, pressureLoop_fst, List.length_map, List.length_zip]
    omega
  · rw [hreac, pressureLoop_fst, List.map_map]
    exact zip_map_snd_eq _ _ hlenv
  · intro k hk
    have hkz : k < (A.support_points.zip
        (A.fourPointReactionValues A.combinedCog A.totalWeight)).length := by
      rw [List.length_zip]; omega
    rw [hreac, pressureLoop_fst,
      getD_map_of_lt _ _ k hkz default default,
      getD_zip_default _ _ k hk hlenv]

theorem four_point_max_spec {A : GroundBearingAnalysis}
    {r : GroundBearingResult}
    (hok : A.calculate_four_point_reactions = .ok r) :
    isEarliestArgmax (A.fourPointReactionValues A.combinedCog A.totalWeight)
      r.critical_support_index ∧
    r.max_reaction = (A.fourPointReactionValues A.combinedCog
      A.totalWeight).getD r.critical_support_index 0 ∧
    r.max_pressure = (A.fourPointReactionValues A.combinedCog
      A.totalWeight).getD r.critical_support_index 0 /
      (A.support_points.getD r.critical_support_index
        default).contact_area := by
  obtain ⟨hm, hreac, hmR, hmP, hcrit⟩ := four_point_ok_elim hok
  obtain ⟨h4, hveq, hnn⟩ := from_moments_ok_elim hm
  have hlenv : A.support_points.length =
      (A.fourPointReactionValues A.combinedCog A.totalWeight).length := by
    simp [GroundBearingAnalysis.fourPointReactionValues]
  have hlene : (A.support_points.zip (A.fourPointReactionValues A.combinedCog
      A.totalWeight)).length = A.support_points.length := by
    rw [List.length_zip]; omega
  have hgetD : ∀ k, k < A.support_points.length →
      (A.support_points.zip (A.fourPointReactionValues A.combinedCog
        A.totalWeight)).getD k default =
      (A.support_points.getD k default,
       (A.fourPointReactionValues A.combinedCog A.totalWeight).getD k 0) :=
    fun k hk => getD_zip_default _ _ k hk hlenv
  have hvals_nn : ∀ k, k < A.support_points.length →
      0 ≤ (A.fourPointReactionValues A.combinedCog A.totalWeight).getD k 0 := by
    intro k hk
    exact hnn _ (getD_mem_of_lt _ k (by omega) 0)
  rcases pressureLoop_spec (A.support_points.zip
      (A.fourPointReactionValues A.combinedCog A.totalWeight)) 0 0 0 0 with
    ⟨heq, hall⟩ | ⟨j, hj, hcritj, hmRj, hmPj, hpos, hmax, hstrict⟩
  · have hzero : ∀ k, k < A.support_points.length →
        (A.fourPointReactionValues A.combinedCog A.totalWeight).getD k 0 = 0 := by
      intro k hk
      have h1 := hall _ (getD_mem_of_lt _ k (by omega) default)
      rw [hgetD k hk] at h1
      exact le_antisymm h1 (hvals_nn k hk)
    have hc0 : r.critical_support_index = 0 := by rw [hcrit, heq]
    refine ⟨⟨?_, ?_, ?_⟩, ?_, ?_⟩
    · rw [hc0]; omega
    · intro k hk
      rw [hc0, hzero k (by omega), hzero 0 (by omega)]
    · intro k hk
      rw [hc0] at hk
      omega
    · rw [hmR, heq, hc0, hzero 0 (by omega)]
    · rw [hmP, heq, hc0, hzero 0 (by omega)]
      simp
  · have hc : r.critical_support_index = j := by
      rw [hcrit, hcritj]
      omega
    refine ⟨⟨?_, ?_, ?_⟩, ?_, ?_⟩
    · rw [hc]; omega
    · intro k hk
      rw [hc]
      have h1 := hmax k (by omega)
      rw [hgetD k (by omega), hgetD j (by omega)] at h1
      exact h1
    · intro k hk
      rw [hc] at hk
      have h1 := hstrict k hk
      rw [hgetD k (by omega), hgetD j (by omega)] at h1
      rw [hc]
      exact h1
    · rw [hmR, hc, hmRj, hgetD j (by omega)]
    · rw [hmP, hc, hmPj, hgetD j (by omega)]

/-- C3 counterexample: a five-support analysis with zero crane and load
weight succeeds with `critical_support_index = 1` (the support nearest
the load), while every reaction force is 0, so the earliest index of
the numerically largest force is 0, not 1 — refuting the claim as
stated for every successful result. -/
theorem C3_counterexample :
    zeroWeightAnalysis.calculate_reactions.map
      (fun r => (r.critical_support_index,
        r.reactions.map (fun sr => sr.force))) = .ok (1, [0, 0, 0, 0, 0]) ∧
    ¬ isEarliestArgmax [0, 0, 0, 0, 0] 1 := by
  constructor
  · norm_num [GroundBearingAnalysis.calculate_reactions,
      GroundBearingAnalysis.calculate_general_reactions,
      GroundBearingAnalysis.nearestSupportIdx, nearestAux, dist2,
      GroundBearingAnalysis.totalWeight, zeroWeightAnalysis, Except.map,
      List.enum, List.enumFrom]
  · intro h
    have := h.2.2 0 (by norm_num)
    simp at this

/-- C3 (amended): for every successful analysis with positive combined
weight, `critical_support_index` is the earliest index of the largest
reaction force, `max_reaction` and `max_pressure` are the force and
pressure recorded at that index, soil validation compares exactly
`max_pressure` against the allowable value, and there is an analysis
(differing contact areas) whose `max_pressure` is strictly smaller than
the largest per-support pressure. -/
theorem C3_critical_support (A : GroundBearingAnalysis)
    (r : GroundBearingResult) (hok : A.calculate_reactions = .ok r)
    (hW : 0 < A.totalWeight) :
    isEarliestArgmax (r.reactions.map (fun sr => sr.force))
      r.critical_support_index ∧
    r.max_reaction =
      (r.reactions.getD r.critical_support_index default).force ∧
    r.max_pressure =
      (r.reactions.getD r.critical_support_index default).pressure ∧
    (∀ p, A.validate_soil_capacity p = .ok () ↔ r.max_pressure ≤ p) ∧
    (∃ (B : GroundBearingAnalysis) (rb : GroundBearingResult),
      B.calculate_reactions = .ok rb ∧
      rb.max_pressure < listMax (rb.reactions.map (fun sr => sr.pressure))) := by
  have hex : ∃ (B : GroundBearingAnalysis) (rb : GroundBearingResult),
      B.calculate_reactions = .ok rb ∧
      rb.max_pressure < listMax (rb.reactions.map (fun sr => sr.pressure)) := by
    refine ⟨unequalAreaAnalysis, uaResult, ?_, ?_⟩
    · norm_num [GroundBearingAnalysis.calculate_reactions,
        GroundBearingAnalysis.calculate_four_point_reactions,
        GroundBearingAnalysis.calculate_reactions_from_moments,
        GroundBearingAnalysis.fourPointReactionValues,
        GroundBearingAnalysis.combinedCog, GroundBearingAnalysis.totalWeight,
        GroundBearingAnalysis.avgX, GroundBearingAnalysis.avgZ,
        GroundBearingAnalysis.xSpan, GroundBearingAnalysis.zSpan,
        GroundBearingAnalysis.supportXs, GroundBearingAnalysis.supportZs,
        listMax, listMin, reactionCheckLoop, pressureLoop,
        unequalAreaAnalysis, uaResult]
    · norm_num [uaResult, listMax]
  by_cases h4 : A.support_points.length = 4
  · have hok4 : A.calculate_four_point_reactions = .ok r := by
      rw [← calculate_reactions_four A h4]
      exact hok
    obtain ⟨hlen, hmap, hfields⟩ := four_point_fields hok4
    obtain ⟨hargmax, hmR, hmP⟩ := four_point_max_spec hok4
    have hlenv : A.support_points.length =
        (A.fourPointReactionValues A.combinedCog A.totalWeight).length := by
      simp [GroundBearingAnalysis.fourPointReactionValues]
    have hcrit_lt : r.critical_support_index < A.support_points.length := by
      have := hargmax.1
      omega
    refine ⟨?_, ?_, ?_, fun p => (soil_validation_spec A r p hok).1, hex⟩
    · rw [hmap]
      exact hargmax
    · rw [hfields _ hcrit_lt]
      exact hmR
    · rw [hfields _ hcrit_lt]
      exact hmP
  · have h3 : 3 ≤ A.support_points.length := by
      by_contra hlt
      push_neg at hlt
      have herr : A.calculate_reactions = .error .InsufficientSupports := by
        unfold GroundBearingAnalysis.calculate_reactions
        rw [if_pos hlt]
      rw [herr] at hok
      cases hok
    have hokg : A.calculate_general_reactions = .ok r := by
      rw [← calculate_reactions_general A h3 h4]
      exact hok
    obtain ⟨r2, hok2, hlen, hcrit, hmR, hmP, hfields⟩ :=
      general_reactions_fields A
    rw [hokg] at hok2
    simp only [Except.ok.injEq] at hok2
    subst hok2
    have hne : A.support_points ≠ [] := by
      intro h
      rw [h] at h3
      simp at h3
    have hnear := nearestSupportIdx_spec A hne
    have hforce : ∀ k, k < A.support_points.length →
        (r.reactions.map (fun sr => sr.force)).getD k 0 =
          if k = A.nearestSupportIdx then A.totalWeight else 0 := by
      intro k hk
      rw [getD_map_of_lt _ _ k (by omega) 0 default, hfields k hk]
    refine ⟨⟨?_, ?_, ?_⟩, ?_, ?_,
      fun p => (soil_validation_spec A r p hok).1, hex⟩
    · rw [List.length_map, hlen, hcrit]
      exact hnear.1
    · intro j hj
      rw [List.length_map, hlen] at hj
      rw [hforce j hj, hcrit, hforce A.nearestSupportIdx hnear.1]
      simp only [if_pos rfl]
      by_cases hjc : j = A.nearestSupportIdx
      · simp [hjc]
      · rw [if_neg hjc]
        exact le_of_lt hW
    · intro j hj
      rw [hcrit] at hj
      have hjlt : j < A.support_points.length := lt_trans hj hnear.1
      rw [hforce j hjlt, hcrit, hforce A.nearestSupportIdx hnear.1]
      simp only [if_pos rfl]
      rw [if_neg (by omega)]
      exact hW
    · rw [hmR, hcrit, hfields A.nearestSupportIdx hnear.1]
      simp
    · rw [hmP, hcrit, hfields A.nearestSupportIdx hnear.1]
      simp

/-- C3 witness: instantiating the amended claim on the centered example
analysis. -/
theorem C3_witness :
    exampleResult.max_pressure =
      (exampleResult.reactions.getD
        exampleResult.critical_support_index default).pressure := by
  have hok : exampleAnalysis.calculate_reactions = .ok exampleResult := by
    norm_num [GroundBearingAnalysis.calculate_reactions,
      GroundBearingAnalysis.calculate_four_point_reactions,
      GroundBearingAnalysis.calculate_reactions_from_moments,
      GroundBearingAnalysis.fourPointReactionValues,
      GroundBearingAnalysis.combinedCog, GroundBearingAnalysis.totalWeight,
      GroundBearingAnalysis.avgX, GroundBearingAnalysis.avgZ,
      GroundBearingAnalysis.xSpan, GroundBearingAnalysis.zSpan,
      GroundBearingAnalysis.supportXs, GroundBearingAnalysis.supportZs,
      listMax, listMin, reactionCheckLoop, pressureLoop,
      exampleAnalysis, exampleResult]
  exact (C3_critical_support exampleAnalysis exampleResult hok
    (by norm_num [GroundBearingAnalysis.totalWeight, exampleAnalysis])).2.2.1

theorem filter_length_four {α : Type} (P : α → Prop) [DecidablePred P]
    (a b c d : α)
    (h : (([a, b, c, d]).filter (fun x => decide (P x))).length = 2) :
    (if P a then (1 : ℕ) else 0) + (if P b then 1 else 0) +
      (if P c then 1 else 0) + (if P d then 1 else 0) = 2 := by
  by_cases ha : P a <;> by_cases hb : P b <;> by_cases hc : P c <;>
    by_cases hd : P d <;> simp_all [List.filter]

/-- C1 counterexample: a four-support layout with three supports right
of the X centerline and one left of it (supports at x = 1, 1, 1, -3)
and combined COG at x = 2/5 succeeds, but the reactions sum to 110 lb
while crane plus load weight is 100 lb — a 10 percent discrepancy, far
outside floating-point tolerance. -/
theorem C1_counterexample :
    skewedAnalysis.calculate_reactions.map
      (fun r => sumForces r.reactions) = .ok 110 ∧
    skewedAnalysis.crane_weight + skewedAnalysis.load_weight = 100 ∧
    (110 : ℚ) ≠ 100 := by
  refine ⟨?_, by norm_num [skewedAnalysis], by norm_num⟩
  norm_num [GroundBearingAnalysis.calculate_reactions,
    GroundBearingAnalysis.calculate_four_point_reactions,
    GroundBearingAnalysis.calculate_reactions_from_moments,
    GroundBearingAnalysis.fourPointReactionValues,
    GroundBearingAnalysis.combinedCog, GroundBearingAnalysis.totalWeight,
    GroundBearingAnalysis.avgX, GroundBearingAnalysis.avgZ,
    GroundBearingAnalysis.xSpan, GroundBearingAnalysis.zSpan,
    GroundBearingAnalysis.supportXs, GroundBearingAnalysis.supportZs,
    listMax, listMin, reactionCheckLoop, pressureLoop, sumForces,
    skewedAnalysis, Except.map]

/-- C1 (amended): for a successful four-support analysis whose supports
split two against two about both centerline averages (exactly two
supports strictly on the positive side in X and in Z), with nonzero
spans and nonzero total weight, the reaction forces sum exactly to
crane weight plus load weight. -/
theorem C1_balanced_sum (A : GroundBearingAnalysis)
    (r : GroundBearingResult) (hok : A.calculate_reactions = .ok r)
    (h4 : A.support_points.length = 4)
    (hbx : (A.support_points.filter
      (fun s => decide (s.position.x > A.avgX))).length = 2)
    (hbz : (A.support_points.filter
      (fun s => decide (s.position.z > A.avgZ))).length = 2)
    (_hx : A.xSpan ≠ 0) (_hz : A.zSpan ≠ 0) (_hW : A.totalWeight ≠ 0) :
    sumForces r.reactions = A.crane_weight + A.load_weight := by
  have hok4 : A.calculate_four_point_reactions = .ok r := by
    rw [← calculate_reactions_four A h4]
    exact hok
  obtain ⟨hlen, hmap, hfields⟩ := four_point_fields hok4
  obtain ⟨a, b, c, d, hsup⟩ := length_eq_four h4
  rw [hsup] at hbx hbz
  have hcx := filter_length_four (fun s => s.position.x > A.avgX) a b c d hbx
  have hcz := filter_length_four (fun s => s.position.z > A.avgZ) a b c d hbz
  have hxsum := sum_four_signed
    (a.position.x > A.avgX) (b.position.x > A.avgX)
    (c.position.x > A.avgX) (d.position.x > A.avgX)
    ((A.combinedCog.x - A.avgX) / A.xSpan * (A.crane_weight + A.load_weight) / 2)
    (-((A.combinedCog.x - A.avgX) / A.xSpan) * (A.crane_weight + A.load_weight) / 2)
    (by ring) hcx
  have hzsum := sum_four_signed
    (a.position.z > A.avgZ) (b.position.z > A.avgZ)
    (c.position.z > A.avgZ) (d.position.z > A.avgZ)
    ((A.combinedCog.z - A.avgZ) / A.zSpan * (A.crane_weight + A.load_weight) / 2)
    (-((A.combinedCog.z - A.avgZ) / A.zSpan) * (A.crane_weight + A.load_weight) / 2)
    (by ring) hcz
  unfold sumForces
  rw [hmap]
  unfold GroundBearingAnalysis.fourPointReactionValues
  dsimp only
  rw [hsup]
  simp only [GroundBearingAnalysis.totalWeight, List.map_cons, List.map_nil,
    List.sum_cons, List.sum_nil]
  linear_combination hxsum + hzsum

/-- C1 witness: the centered rectangular example splits two against two
about both centerlines and its four reactions sum to exactly 150000 lb,
the combined crane and load weight. -/
theorem C1_witness : sumForces exampleResult.reactions = 150000 := by
  have hok : exampleAnalysis.calculate_reactions = .ok exampleResult := by
    norm_num [GroundBearingAnalysis.calculate_reactions,
      GroundBearingAnalysis.calculate_four_point_reactions,
      GroundBearingAnalysis.calculate_reactions_from_moments,
      GroundBearingAnalysis.fourPointReactionValues,
      GroundBearingAnalysis.combinedCog, GroundBearingAnalysis.totalWeight,
      GroundBearingAnalysis.avgX, GroundBearingAnalysis.avgZ,
      GroundBearingAnalysis.xSpan, GroundBearingAnalysis.zSpan,
      GroundBearingAnalysis.supportXs, GroundBearingAnalysis.supportZs,
      listMax, listMin, reactionCheckLoop, pressureLoop,
      exampleAnalysis, exampleResult]
  have hsum := C1_balanced_sum exampleAnalysis exampleResult hok rfl
    (by norm_num [exampleAnalysis, GroundBearingAnalysis.avgX,
      GroundBearingAnalysis.supportXs, List.filter])
    (by norm_num [exampleAnalysis, GroundBearingAnalysis.avgZ,
      GroundBearingAnalysis.supportZs, List.filter])
    (by norm_num [exampleAnalysis, GroundBearingAnalysis.xSpan,
      GroundBearingAnalysis.supportXs, listMax, listMin])
    (by norm_num [exampleAnalysis, GroundBearingAnalysis.zSpan,
      GroundBearingAnalysis.supportZs, listMax, listMin])
    (by norm_num [exampleAnalysis, GroundBearingAnalysis.totalWeight])
  rw [hsum]
  norm_num [exampleAnalysis]

theorem nearestAux_congr (load : Point3) (l1 l2 : List SupportPoint)
    (h : l1.map (fun s => s.position) = l2.map (fun s => s.position)) :
    ∀ i cur best, nearestAux load l1 i cur best =
      nearestAux load l2 i cur best := by
  induction l1 generalizing l2 with
  | nil =>
    cases l2 with
    | nil => intro i cur best; rfl
    | cons b w => simp at h
  | cons s t ih =>
    cases l2 with
    | nil => simp at h
    | cons s2 w =>
      simp only [List.map_cons, List.cons.injEq] at h
      obtain ⟨hpos, hmap⟩ := h
      intro i cur best
      cases cur with
      | none =>
        simp only [nearestAux, hpos]
        exact ih w hmap (i + 1) _ i
      | some m =>
        simp only [nearestAux, hpos]
        by_cases hd : dist2 s2.position load < m
        · rw [if_pos hd, if_pos hd]
          exact ih w hmap (i + 1) _ i
        · rw [if_neg hd, if_neg hd]
          exact ih w hmap (i + 1) _ best

theorem resizeAreas_supportXs (A : GroundBearingAnalysis) (a : ℚ) :
    (A.resizeAreas a).supportXs = A.supportXs := by
  unfold GroundBearingAnalysis.supportXs GroundBearingAnalysis.resizeAreas
  dsimp only
  rw [List.map_map]
  rfl

theorem resizeAreas_supportZs (A : GroundBearingAnalysis) (a : ℚ) :
    (A.resizeAreas a).supportZs = A.supportZs := by
  unfold GroundBearingAnalysis.supportZs GroundBearingAnalysis.resizeAreas
  dsimp only
  rw [List.map_map]
  rfl

theorem resizeAreas_vals (A : GroundBearingAnalysis) (a : ℚ) :
    (A.resizeAreas a).fourPointReactionValues
        (A.resizeAreas a).combinedCog (A.resizeAreas a).totalWeight =
      A.fourPointReactionValues A.combinedCog A.totalWeight := by
  unfold GroundBearingAnalysis.fourPointReactionValues
  dsimp only
  have havgX : (A.resizeAreas a).avgX = A.avgX := by
    unfold GroundBearingAnalysis.avgX
    rw [resizeAreas_supportXs]
  have havgZ : (A.resizeAreas a).avgZ = A.avgZ := by
    unfold GroundBearingAnalysis.avgZ
    rw [resizeAreas_supportZs]
  have hxs : (A.resizeAreas a).xSpan = A.xSpan := by
    unfold GroundBearingAnalysis.xSpan
    rw [resizeAreas_supportXs]
  have hzs : (A.resizeAreas a).zSpan = A.zSpan := by
    unfold GroundBearingAnalysis.zSpan
    rw [resizeAreas_supportZs]
  have hcog : (A.resizeAreas a).combinedCog = A.combinedCog := rfl
  have hW : (A.resizeAreas a).totalWeight = A.totalWeight := rfl
  rw [havgX, havgZ, hxs, hzs, hcog, hW]
  show (A.resizeAreas a).support_points.map _ = A.support_points.map _
  unfold GroundBearingAnalysis.resizeAreas
  dsimp only
  rw [List.map_map]
  rfl

theorem resize_calculate (A : GroundBearingAnalysis) (a : ℚ)
    (r : GroundBearingResult) (hok : A.calculate_reactions = .ok r)
    (hR : 0 < r.max_reaction) :
    ∃ r2, (A.resizeAreas a).calculate_reactions = .ok r2 ∧
      r2.max_reaction = r.max_reaction ∧
      r2.max_pressure = r.max_reaction / a := by
  have hlen2 : (A.resizeAreas a).support_points.length =
      A.support_points.length := by
    simp [GroundBearingAnalysis.resizeAreas]
  have hsupGetD : ∀ k, k < A.support_points.length →
      (A.resizeAreas a).support_points.getD k default =
        { A.support_points.getD k default with contact_area := a } := by
    intro k hk
    unfold GroundBearingAnalysis.resizeAreas
    dsimp only
    rw [getD_map_of_lt _ _ k hk default default]
  by_cases h4 : A.support_points.length = 4
  · have hok4 : A.calculate_four_point_reactions = .ok r := by
      rw [← calculate_reactions_four A h4]
      exact hok
    obtain ⟨hm, _, hmR, hmP, hcrit⟩ := four_point_ok_elim hok4
    obtain ⟨_, _, hnn⟩ := from_moments_ok_elim hm
    have hlenv : A.support_points.length =
        (A.fourPointReactionValues A.combinedCog A.totalWeight).length := by
      simp [GroundBearingAnalysis.fourPointReactionValues]
    have hlenv2 : (A.resizeAreas a).support_points.length =
        (A.fourPointReactionValues A.combinedCog A.totalWeight).length := by
      omega
    have hm2 : (A.resizeAreas a).calculate_reactions_from_moments
        (A.resizeAreas a).combinedCog (A.resizeAreas a).totalWeight =
        .ok (A.fourPointReactionValues A.combinedCog A.totalWeight) := by
      rw [from_moments_vals_check (by omega), resizeAreas_vals]
      have := reactionCheckLoop_ok_of (l := (A.resizeAreas a).support_points.zip
        (A.fourPointReactionValues A.combinedCog A.totalWeight)) ?_
      · rw [this, zip_map_snd_eq _ _ hlenv2]
      · intro p hp
        exact hnn p.2 (List.of_mem_zip hp).2
    have hfour : (A.resizeAreas a).calculate_four_point_reactions =
        .ok { reactions := (pressureLoop ((A.resizeAreas a).support_points.zip
                (A.fourPointReactionValues A.combinedCog A.totalWeight)) 0 0 0 0).1
              max_reaction := (pressureLoop ((A.resizeAreas a).support_points.zip
                (A.fourPointReactionValues A.combinedCog A.totalWeight)) 0 0 0 0).2.1
              max_pressure := (pressureLoop ((A.resizeAreas a).support_points.zip
                (A.fourPointReactionValues A.combinedCog A.totalWeight)) 0 0 0 0).2.2.1
              critical_support_index := (pressureLoop ((A.resizeAreas a).support_points.zip
                (A.fourPointReactionValues A.combinedCog A.totalWeight)) 0 0 0 0).2.2.2 } := by
      unfold GroundBearingAnalysis.calculate_four_point_reactions
      dsimp only
      rw [hm2]
    have hmapeq : ((A.resizeAreas a).support_points.zip
        (A.fourPointReactionValues A.combinedCog A.totalWeight)).map
          (fun p => p.2) =
        (A.support_points.zip
          (A.fourPointReactionValues A.combinedCog A.totalWeight)).map
          (fun p => p.2) := by
      rw [zip_map_snd_eq _ _ hlenv2, zip_map_snd_eq _ _ hlenv]
    obtain ⟨hcongr1, hcongr2⟩ := pressureLoop_snd_congr _ _ hmapeq 0 0 0 0 0
    refine ⟨_, by rw [calculate_reactions_four _ (by omega)]; exact hfour,
      ?_, ?_⟩
    · dsimp only
      rw [hcongr1, ← hmR]
    · dsimp only
      rcases pressureLoop_spec ((A.resizeAreas a).support_points.zip
          (A.fourPointReactionValues A.combinedCog A.totalWeight)) 0 0 0 0 with
        ⟨heq, hall⟩ | ⟨j, hj, _, hmRj, hmPj, _, _, _⟩
      · exfalso
        have : r.max_reaction = 0 := by
          rw [hmR, ← hcongr1, heq]
        rw [this] at hR
        exact lt_irrefl 0 hR
      · have hjlen : j < A.support_points.length := by
          rw [List.length_zip] at hj
          omega
        have hentry : ((A.resizeAreas a).support_points.zip
            (A.fourPointReactionValues A.combinedCog A.totalWeight)).getD j
              default =
            ({ A.support_points.getD j default with contact_area := a },
             (A.fourPointReactionValues A.combinedCog A.totalWeight).getD j 0) := by
          rw [getD_zip_default _ _ j (by omega) hlenv2, hsupGetD j hjlen]
        rw [hmPj, hentry]
        have hval : (A.fourPointReactionValues A.combinedCog
            A.totalWeight).getD j 0 = r.max_reaction := by
          rw [hmR, ← hcongr1, hmRj, hentry]
        rw [← hval]
  · have h3 : 3 ≤ A.support_points.length := by
      by_contra hlt
      push_neg at hlt
      have herr : A.calculate_reactions = .error .InsufficientSupports := by
        unfold GroundBearingAnalysis.calculate_reactions
        rw [if_pos hlt]
      rw [herr] at hok
      cases hok
    have hokg : A.calculate_general_reactions = .ok r := by
      rw [← calculate_reactions_general A h3 h4]
      exact hok
    obtain ⟨rA, hokA, _, _, hmRA, hmPA, _⟩ := general_reactions_fields A
    rw [hokg] at hokA
    simp only [Except.ok.injEq] at hokA
    subst hokA
    obtain ⟨r2, hok2, _, hcrit2, hmR2, hmP2, _⟩ :=
      general_reactions_fields (A.resizeAreas a)
    have hne : A.support_points ≠ [] := by
      intro h
      rw [h] at h3
      simp at h3
    have hnear : (A.resizeAreas a).nearestSupportIdx =
        A.nearestSupportIdx := by
      unfold GroundBearingAnalysis.nearestSupportIdx
      exact nearestAux_congr A.load_position _ _
        (by
          unfold GroundBearingAnalysis.resizeAreas
          dsimp only
          rw [List.map_map]
          rfl) 0 none 0
    have hW2 : (A.resizeAreas a).totalWeight = A.totalWeight := rfl
    refine ⟨r2, ?_, ?_, ?_⟩
    · rw [calculate_reactions_general _ (by omega) (by omega)]
      exact hok2
    · rw [hmR2, hW2, hmRA]
    · rw [hmP2, hW2, hnear, hsupGetD A.nearestSupportIdx
        (nearestSupportIdx_spec A hne).1]
      rw [hmRA]

/-- C8: for any successful analysis with positive max reaction and
positive allowable pressure, sizing mats with
`required_mat_area(allowable, 1)` and rerunning the validation with
every contact area set to that value passes, and the re-computed max
pressure equals the allowable exactly (zero margin). -/
theorem C8_round_trip (A : GroundBearingAnalysis) (r : GroundBearingResult)
    (p : ℚ) (hok : A.calculate_reactions = .ok r) (hp : 0 < p)
    (hR : 0 < r.max_reaction) :
    ∃ a, A.required_mat_area p 1 = .ok a ∧
      (A.resizeAreas a).validate_soil_capacity p = .ok () ∧
      ∃ r2, (A.resizeAreas a).calculate_reactions = .ok r2 ∧
        r2.max_pressure = p := by
  obtain ⟨r2, hok2, hmR2, hmP2⟩ :=
    resize_calculate A (r.max_reaction / p) r hok hR
  have hmargin : r2.max_pressure = p := by
    have h1 : r.max_reaction ≠ 0 := ne_of_gt hR
    have h2 : p ≠ 0 := ne_of_gt hp
    rw [hmP2]
    field_simp
  refine ⟨r.max_reaction / p, ?_, ?_, r2, hok2, hmargin⟩
  · unfold GroundBearingAnalysis.required_mat_area
    rw [hok]
    simp
  · exact (soil_validation_spec _ r2 p hok2).1.mpr (le_of_eq hmargin)

/-- C8 witness: the centered example sized for a 50 psi allowable:
required area 750 square inches per support, and re-validation passes. -/
theorem C8_witness :
    ∃ a, exampleAnalysis.required_mat_area 50 1 = .ok a ∧
      (exampleAnalysis.resizeAreas a).validate_soil_capacity 50 = .ok () := by
  have hok : exampleAnalysis.calculate_reactions = .ok exampleResult := by
    norm_num [GroundBearingAnalysis.calculate_reactions,
      GroundBearingAnalysis.calculate_four_point_reactions,
      GroundBearingAnalysis.calculate_reactions_from_moments,
      GroundBearingAnalysis.fourPointReactionValues,
      GroundBearingAnalysis.combinedCog, GroundBearingAnalysis.totalWeight,
      GroundBearingAnalysis.avgX, GroundBearingAnalysis.avgZ,
      GroundBearingAnalysis.xSpan, GroundBearingAnalysis.zSpan,
      GroundBearingAnalysis.supportXs, GroundBearingAnalysis.supportZs,
      listMax, listMin, reactionCheckLoop, pressureLoop,
      exampleAnalysis, exampleResult]
  obtain ⟨a, h1, h2, _⟩ := C8_round_trip exampleAnalysis exampleResult 50
    hok (by norm_num) (by norm_num [exampleResult])
  exact ⟨a, h1, h2⟩

theorem mem_split_cases {y : ℚ × ℚ} {l1 l2 : List (ℚ × ℚ)}
    {p1 p2 : ℚ × ℚ} (hy : y ∈ l1 ++ p1 :: p2 :: l2) :
    y ∈ l1 ∨ y = p1 ∨ y = p2 ∨ y ∈ l2 := by
  rcases List.mem_append.mp hy with h | h
  · exact Or.inl h
  · rcases List.mem_cons.mp h with h | h
    · exact Or.inr (Or.inl h)
    · rcases List.mem_cons.mp h with h | h
      · exact Or.inr (Or.inr (Or.inl h))
      · exact Or.inr (Or.inr (Or.inr h))

theorem pairwise_split_facts {l1 l2 : List (ℚ × ℚ)} {r1 c1 r2 c2 : ℚ}
    (hp : List.Pairwise (fun p q => p.1 + 1 / 10 < q.1)
      (l1 ++ (r1, c1) :: (r2, c2) :: l2)) :
    (∀ y ∈ l1, y.1 + 1 / 10 < r1) ∧ (r1 + 1 / 10 < r2) ∧
      (∀ y ∈ l2, r2 + 1 / 10 < y.1) := by
  rw [List.pairwise_append] at hp
  obtain ⟨h1, h2, hcross⟩ := hp
  rw [List.pairwise_cons] at h2
  obtain ⟨hr1, h3⟩ := h2
  rw [List.pairwise_cons] at h3
  obtain ⟨hr2, _⟩ := h3
  exact ⟨fun y hy => hcross y hy (r1, c1) (by simp),
    hr1 (r2, c2) (by simp), fun y hy => hr2 y hy⟩

theorem enum_mem_spec {l : List ℚ} {y : ℕ × ℚ} (hy : y ∈ l.enum) :
    y.1 < l.length ∧ y.2 = l.getD y.1 0 := by
  have h := mem_enumFrom_spec (l := l) (k := 0) (p := y) hy 0
  obtain ⟨_, h2, h3⟩ := h
  rw [Nat.sub_zero] at h2 h3
  exact ⟨h2, h3⟩

theorem enum_self_mem {l : List ℚ} {i : ℕ} (hi : i < l.length) :
    (i, l.getD i 0) ∈ l.enum := by
  have := enumFrom_mem_of_lt l 0 i hi 0
  simpa using this

theorem find_boom_bounds_exact (c : LoadChart) (bs : List ℚ)
    (h1 : c.capacity_data.boom_lengths_ft = .ok bs)
    (hsep : ∀ i j, i < bs.length → j < bs.length → i ≠ j →
      1 / 10 < |bs.getD i 0 - bs.getD j 0|)
    (i : ℕ) (hi : i < bs.length) :
    c.find_boom_bounds (bs.getD i 0) = .ok (i, i) := by
  have hne : bs ≠ [] := by
    intro h
    rw [h] at hi
    simp at hi
  have hlow : maxByLast (fun p => p.2) (bs.enum.filter
      (fun p => decide (p.2 ≤ bs.getD i 0 + 1 / 10))) = some (i, bs.getD i 0) := by
    apply maxByLast_eq_some
    · rw [List.mem_filter]
      refine ⟨enum_self_mem hi, by simp⟩
    · intro y hy
      rw [List.mem_filter] at hy
      obtain ⟨hmem, hpred⟩ := hy
      simp only [decide_eq_true_eq] at hpred
      obtain ⟨hylt, hyval⟩ := enum_mem_spec hmem
      by_cases hyi : y.1 = i
      · rw [hyval, hyi]
      · have hs := hsep y.1 i hylt hi hyi
        rw [← hyval] at hs
        by_cases hgt : y.2 ≤ bs.getD i 0
        · exact hgt
        · push_neg at hgt
          rw [abs_of_pos (by linarith)] at hs
          linarith
    · intro y hy hkey
      rw [List.mem_filter] at hy
      obtain ⟨hmem, _⟩ := hy
      obtain ⟨hylt, hyval⟩ := enum_mem_spec hmem
      by_cases hyi : y.1 = i
      · obtain ⟨ya, yb⟩ := y
        simp only at hyi hkey
        rw [hyi, hkey]
      · have hs := hsep y.1 i hylt hi hyi
        rw [← hyval, hkey] at hs
        simp at hs
        linarith
  have hhigh : minByFirst (fun p => p.2) (bs.enum.filter
      (fun p => decide (p.2 ≥ bs.getD i 0 - 1 / 10))) = some (i, bs.getD i 0) := by
    apply minByFirst_eq_some
    · rw [List.mem_filter]
      refine ⟨enum_self_mem hi, by simp⟩
    · intro y hy
      rw [List.mem_filter] at hy
      obtain ⟨hmem, hpred⟩ := hy
      simp only [ge_iff_le, decide_eq_true_eq] at hpred
      obtain ⟨hylt, hyval⟩ := enum_mem_spec hmem
      by_cases hyi : y.1 = i
      · rw [hyval, hyi]
      · have hs := hsep y.1 i hylt hi hyi
        rw [← hyval] at hs
        by_cases hgt : bs.getD i 0 ≤ y.2
        · exact hgt
        · push_neg at hgt
          rw [abs_of_neg (by linarith)] at hs
          linarith
    · intro y hy hkey
      rw [List.mem_filter] at hy
      obtain ⟨hmem, _⟩ := hy
      obtain ⟨hylt, hyval⟩ := enum_mem_spec hmem
      by_cases hyi : y.1 = i
      · obtain ⟨ya, yb⟩ := y
        simp only at hyi hkey
        rw [hyi, hkey]
      · have hs := hsep y.1 i hylt hi hyi
        rw [← hyval, hkey] at hs
        simp at hs
        linarith
  unfold LoadChart.find_boom_bounds
  rw [h1]
  dsimp only
  have hcond : ¬ (bs.isEmpty = true) := by
    simp only [List.isEmpty_iff]
    exact hne
  rw [if_neg hcond, hlow, hhigh]

theorem interpolate_radius_midpoint (c : LoadChart) (i : ℕ)
    (l1 l2 : List (ℚ × ℚ)) (r1 c1 r2 c2 : ℚ)
    (hrow : c.capacity_data.capacity_points i =
      .ok (l1 ++ (r1, c1) :: (r2, c2) :: l2))
    (hpair : List.Pairwise (fun p q => p.1 + 1 / 10 < q.1)
      (l1 ++ (r1, c1) :: (r2, c2) :: l2)) :
    c.interpolate_radius i ((r1 + r2) / 2) = .ok ((c1 + c2) / 2) := by
  obtain ⟨hl1, hgap, hl2⟩ := pairwise_split_facts hpair
  have hinj := pairwise_gap_inj hpair
  have hr12 : r1 < r2 := by linarith
  have hm1 : r1 < (r1 + r2) / 2 := by linarith
  have hm2 : (r1 + r2) / 2 < r2 := by linarith
  have hmemr1 : (r1, c1) ∈ l1 ++ (r1, c1) :: (r2, c2) :: l2 := by simp
  have hmemr2 : (r2, c2) ∈ l1 ++ (r1, c1) :: (r2, c2) :: l2 := by simp
  have hne12 : r1 - r2 ≠ 0 := ne_of_lt (by linarith)
  have hne21 : r2 - r1 ≠ 0 := ne_of_gt (by linarith)
  unfold LoadChart.interpolate_radius
  rw [hrow]
  dsimp only
  have hempty : ¬ ((l1 ++ (r1, c1) :: (r2, c2) :: l2).isEmpty = true) := by
    simp [List.isEmpty_iff]
  rw [if_neg hempty]
  by_cases hcase : r2 ≤ (r1 + r2) / 2 + 1 / 10
  · have hlow : maxByLast (fun p => p.1)
        ((l1 ++ (r1, c1) :: (r2, c2) :: l2).filter
          (fun p => decide (p.1 ≤ (r1 + r2) / 2 + 1 / 10))) =
        some (r2, c2) := by
      apply maxByLast_eq_some
      · rw [List.mem_filter]
        exact ⟨hmemr2, by simp only [decide_eq_true_eq]; exact hcase⟩
      · intro y hy
        rw [List.mem_filter] at hy
        obtain ⟨hmem, hpred⟩ := hy
        simp only [decide_eq_true_eq] at hpred
        show y.1 ≤ r2
        rcases mem_split_cases hmem with h | h | h | h
        · have := hl1 y h; linarith
        · rw [h]; exact le_of_lt hr12
        · rw [h]
        · exfalso; have := hl2 y h; linarith
      · intro y hy hkey
        rw [List.mem_filter] at hy
        exact hinj y hy.1 (r2, c2) hmemr2 hkey
    have hup : minByFirst (fun p => p.1)
        ((l1 ++ (r1, c1) :: (r2, c2) :: l2).filter
          (fun p => decide (p.1 ≥ (r1 + r2) / 2 - 1 / 10))) =
        some (r1, c1) := by
      apply minByFirst_eq_some
      · rw [List.mem_filter]
        exact ⟨hmemr1, by simp only [ge_iff_le, decide_eq_true_eq]; linarith⟩
      · intro y hy
        rw [List.mem_filter] at hy
        obtain ⟨hmem, hpred⟩ := hy
        simp only [ge_iff_le, decide_eq_true_eq] at hpred
        show r1 ≤ y.1
        rcases mem_split_cases hmem with h | h | h | h
        · exfalso; have := hl1 y h; linarith
        · rw [h]
        · rw [h]; exact le_of_lt hr12
        · have := hl2 y h; linarith
      · intro y hy hkey
        rw [List.mem_filter] at hy
        exact hinj y hy.1 (r1, c1) hmemr1 hkey
    rw [hlow, hup]
    dsimp only
    have habs : ¬ (|r2 - r1| < 1 / 10) := by
      rw [abs_of_pos (by linarith)]
      linarith
    rw [if_neg habs]
    have hval : c2 + ((r1 + r2) / 2 - r2) / (r1 - r2) * (c1 - c2) =
        (c1 + c2) / 2 := by
      field_simp
      ring
    rw [hval]
  · push_neg at hcase
    have hlow : maxByLast (fun p => p.1)
        ((l1 ++ (r1, c1) :: (r2, c2) :: l2).filter
          (fun p => decide (p.1 ≤ (r1 + r2) / 2 + 1 / 10))) =
        some (r1, c1) := by
      apply maxByLast_eq_some
      · rw [List.mem_filter]
        exact ⟨hmemr1, by simp only [decide_eq_true_eq]; linarith⟩
      · intro y hy
        rw [List.mem_filter] at hy
        obtain ⟨hmem, hpred⟩ := hy
        simp only [decide_eq_true_eq] at hpred
        show y.1 ≤ r1
        rcases mem_split_cases hmem with h | h | h | h
        · have := hl1 y h; linarith
        · rw [h]
        · exfalso; rw [h] at hpred; simp only at hpred; linarith
        · exfalso; have := hl2 y h; linarith
      · intro y hy hkey
        rw [List.mem_filter] at hy
        exact hinj y hy.1 (r1, c1) hmemr1 hkey
    have hup : minByFirst (fun p => p.1)
        ((l1 ++ (r1, c1) :: (r2, c2) :: l2).filter
          (fun p => decide (p.1 ≥ (r1 + r2) / 2 - 1 / 10))) =
        some (r2, c2) := by
      apply minByFirst_eq_some
      · rw [List.mem_filter]
        exact ⟨hmemr2, by simp only [ge_iff_le, decide_eq_true_eq]; linarith⟩
      · intro y hy
        rw [List.mem_filter] at hy
        obtain ⟨hmem, hpred⟩ := hy
        simp only [ge_iff_le, decide_eq_true_eq] at hpred
        show r2 ≤ y.1
        rcases mem_split_cases hmem with h | h | h | h
        · exfalso; have := hl1 y h; linarith
        · exfalso; rw [h] at hpred; simp only at hpred; linarith
        · rw [h]
        · have := hl2 y h; linarith
      · intro y hy hkey
        rw [List.mem_filter] at hy
        exact hinj y hy.1 (r2, c2) hmemr2 hkey
    rw [hlow, hup]
    dsimp only
    have habs : ¬ (|r1 - r2| < 1 / 10) := by
      rw [abs_of_neg (by linarith)]
      linarith
    rw [if_neg habs]
    have hval : c1 + ((r1 + r2) / 2 - r1) / (r2 - r1) * (c2 - c1) =
        (c1 + c2) / 2 := by
      field_simp
      ring
    rw [hval]

/-- C9 counterexample: `closeBoomChart` stores the point (boom 20.005 ft,
radius 10 ft, capacity 200 lb) in its second row, but querying exactly
that stored point returns 100 lb: the first row (boom 20 ft) is within
the 0.01 ft tolerance and is matched first. -/
theorem C9_counterexample :
    closeBoomChart.capacity_data.boom_lengths.getD 1 ⟨0, ""⟩ =
      ⟨4001 / 200, "ft"⟩ ∧
    (closeBoomChart.capacity_data.data.getD 1 []).getD 0 (⟨0, ""⟩, ⟨0, ""⟩) =
      (⟨10, "ft"⟩, ⟨200, "lb"⟩) ∧
    closeBoomChart.capacity_exact (4001 / 200) 10 = .ok 100 ∧
    (100 : ℚ) ≠ 200 := by
  refine ⟨rfl, rfl, ?_, by norm_num⟩
  norm_num [LoadChart.capacity_exact, CapacityData.boom_lengths_ft,
    CapacityData.capacity_points, LengthValue.to_distance,
    MassValue.to_mass, lengthUnitToFeet, massUnitToPounds, closeBoomChart,
    List.mapM, List.mapM.loop, List.findIdx?, List.find?, bind, Except.bind,
    pure, Except.pure, abs_lt]

/-- C9 (amended): provided all stored lengths convert, `capacity_exact`
finds the first boom row within 0.01 ft of the query and, inside it, the
first radius point within 0.01 ft: if the stored point of interest is
that first match (rows and radii separated beyond tolerance), the query
returns its stored capacity exactly, for any query value within
tolerance (hence independent of the unit the query was authored in);
with no boom row within tolerance the lookup fails with
`BoomLengthNotFound`, and with no radius within tolerance inside the
matched row it fails with `RadiusOutOfRange`. -/
theorem C9_exact_lookup (c : LoadChart) (bs : List ℚ)
    (h1 : c.capacity_data.boom_lengths_ft = .ok bs) :
    (∀ qb qr, (∀ j, j < bs.length → ¬ |bs.getD j 0 - qb| < 1 / 100) →
      c.capacity_exact qb qr = .error (.BoomLengthNotFound qb)) ∧
    (∀ i qb pts, i < bs.length → |bs.getD i 0 - qb| < 1 / 100 →
      (∀ j, j < i → ¬ |bs.getD j 0 - qb| < 1 / 100) →
      c.capacity_data.capacity_points i = .ok pts →
      (∀ qr, (∀ k, k < pts.length →
          ¬ |(pts.getD k (0, 0)).1 - qr| < 1 / 100) →
        c.capacity_exact qb qr = .error (.RadiusOutOfRange qr)) ∧
      (∀ qr k, k < pts.length → |(pts.getD k (0, 0)).1 - qr| < 1 / 100 →
        (∀ k2, k2 < k → ¬ |(pts.getD k2 (0, 0)).1 - qr| < 1 / 100) →
        c.capacity_exact qb qr = .ok (pts.getD k (0, 0)).2)) := by
  constructor
  · intro qb qr hnone
    unfold LoadChart.capacity_exact
    rw [h1]
    dsimp only
    rw [findIdx?_eq_none_of _ _ 0 0 (fun j hj => by
      simp only [decide_eq_false_iff_not]
      exact hnone j hj)]
  · intro i qb pts hi hqb hfirst hrow
    have hidx : bs.findIdx? (fun b => decide (|b - qb| < 1 / 100)) = some i := by
      have := findIdx?_eq_some_of (fun b => decide (|b - qb| < 1 / 100))
        bs i 0 0 hi (by simp only [decide_eq_true_eq]; exact hqb)
        (fun j hj => by
          simp only [decide_eq_false_iff_not]
          exact hfirst j hj)
      simpa using this
    constructor
    · intro qr hnone
      unfold LoadChart.capacity_exact
      rw [h1]
      dsimp only
      rw [hidx]
      dsimp only
      rw [hrow]
      dsimp only
      rw [find?_eq_none_of _ _ (0, 0) (fun k hk => by
        simp only [decide_eq_false_iff_not]
        exact hnone k hk)]
    · intro qr k hk hqr hkfirst
      unfold LoadChart.capacity_exact
      rw [h1]
      dsimp only
      rw [hidx]
      dsimp only
      rw [hrow]
      dsimp only
      rw [find?_eq_some_of _ _ k (0, 0) hk
        (by simp only [decide_eq_true_eq]; exact hqr)
        (fun k2 hk2 => by
          simp only [decide_eq_false_iff_not]
          exact hkfirst k2 hk2)]

/-- C9 witness: a chart authored in metric units (boom 10 m, radius 5 m,
capacity 1000 kg) queried with imperial values 32.8 ft and 16.4 ft
(each within 0.01 ft of the stored point) returns the stored capacity,
1000 kg expressed exactly in pounds. -/
theorem C9_witness :
    metricChart.capacity_exact (164 / 5) (82 / 5) =
      .ok (100000000000 / 45359237) := by
  have h1 : metricChart.capacity_data.boom_lengths_ft =
      .ok [10 * (1250 / 381)] := by
    simp [CapacityData.boom_lengths_ft, metricChart, LengthValue.to_distance,
      lengthUnitToFeet, List.mapM, List.mapM.loop, pure, Except.pure,
      Bind.bind, Except.bind]
  have hrow : metricChart.capacity_data.capacity_points 0 =
      .ok [(5 * (1250 / 381), 1000 * (100000000 / 45359237))] := by
    simp [CapacityData.capacity_points, metricChart, LengthValue.to_distance,
      MassValue.to_mass, lengthUnitToFeet, massUnitToPounds, List.mapM,
      List.mapM.loop, pure, Except.pure, Bind.bind, Except.bind]
  have h := ((C9_exact_lookup metricChart _ h1).2 0 (164 / 5) _
    (by norm_num)
    (by norm_num [abs_lt])
    (fun j hj => absurd hj (Nat.not_lt_zero j))
    hrow).2 (82 / 5) 0 (by norm_num)
    (by norm_num [abs_lt])
    (fun k2 hk2 => absurd hk2 (Nat.not_lt_zero k2))
  rw [h]
  norm_num

/-- C10 counterexample: in `crowdedRadiusChart` the adjacent stored
radii 10 and 10.12 ft are separated by 0.12 ft, more than the 0.1 ft
epsilon, yet querying their midpoint 10.06 ft returns 180 lb instead of
the 150 lb midpoint of their capacities: the third stored radius
10.15 ft also falls inside the search window and hijacks the bounds. -/
theorem C10_counterexample :
    crowdedRadiusChart.capacity_interpolated 20 (503 / 50) = .ok 180 ∧
    (1 / 10 : ℚ) < 253 / 25 - 10 ∧
    (503 / 50 : ℚ) = (10 + 253 / 25) / 2 ∧
    (180 : ℚ) ≠ (100 + 200) / 2 := by
  refine ⟨?_, by norm_num, by norm_num, by norm_num⟩
  have hb : crowdedRadiusChart.capacity_data.boom_lengths_ft = .ok [20 * 1] := by
    simp [CapacityData.boom_lengths_ft, crowdedRadiusChart,
      LengthValue.to_distance, lengthUnitToFeet, List.mapM, List.mapM.loop,
      pure, Except.pure, Bind.bind, Except.bind]
  have hp : crowdedRadiusChart.capacity_data.capacity_points 0 =
      .ok [(10 * 1, 100 * 1), (253 / 25 * 1, 200 * 1),
           (203 / 20 * 1, 300 * 1)] := by
    simp [CapacityData.capacity_points, crowdedRadiusChart,
      LengthValue.to_distance, MassValue.to_mass, lengthUnitToFeet,
      massUnitToPounds, List.mapM, List.mapM.loop, pure, Except.pure,
      Bind.bind, Except.bind]
  norm_num [LoadChart.capacity_interpolated, LoadChart.find_boom_bounds,
    LoadChart.interpolate_radius, hb, hp, maxByLast, minByFirst,
    List.enum, List.enumFrom, List.filter, abs_lt, abs_sub_lt_iff]

/-- C10 (amended): when every pair of stored boom lengths is separated
by more than 0.1 ft and the radii of the queried row are sorted with
every consecutive pair separated by more than 0.1 ft, querying
`capacity_interpolated` at a stored boom length and the arithmetic
midpoint of two adjacent stored radii returns exactly the arithmetic
midpoint of their stored capacities. -/
theorem C10_midpoint_interpolation (c : LoadChart) (bs : List ℚ)
    (h1 : c.capacity_data.boom_lengths_ft = .ok bs)
    (hsep : ∀ i j, i < bs.length → j < bs.length → i ≠ j →
      1 / 10 < |bs.getD i 0 - bs.getD j 0|)
    (i : ℕ) (hi : i < bs.length)
    (l1 l2 : List (ℚ × ℚ)) (r1 c1 r2 c2 : ℚ)
    (hrow : c.capacity_data.capacity_points i =
      .ok (l1 ++ (r1, c1) :: (r2, c2) :: l2))
    (hpair : List.Pairwise (fun p q => p.1 + 1 / 10 < q.1)
      (l1 ++ (r1, c1) :: (r2, c2) :: l2)) :
    c.capacity_interpolated (bs.getD i 0) ((r1 + r2) / 2) =
      .ok ((c1 + c2) / 2) := by
  unfold LoadChart.capacity_interpolated
  rw [find_boom_bounds_exact c bs h1 hsep i hi]
  dsimp only
  rw [interpolate_radius_midpoint c i l1 l2 r1 c1 r2 c2 hrow hpair]
  dsimp only
  rw [if_pos rfl]

/-- C10 witness: the well-separated chart queried at stored boom 80 ft
and radius 25 ft (midpoint of stored radii 20 and 30 ft) returns
800 lb, the midpoint of the stored capacities 1000 and 600 lb. -/
theorem C10_witness :
    separatedChart.capacity_interpolated 80 25 = .ok 800 := by
  have h1 : separatedChart.capacity_data.boom_lengths_ft =
      .ok [80 * 1, 100 * 1] := by
    simp [CapacityData.boom_lengths_ft, separatedChart,
      LengthValue.to_distance, lengthUnitToFeet, List.mapM, List.mapM.loop,
      pure, Except.pure, Bind.bind, Except.bind]
  have hrow : separatedChart.capacity_data.capacity_points 0 =
      .ok ([] ++ (20 * 1, 1000 * 1) :: (30 * 1, 600 * 1) :: []) := by
    simp [CapacityData.capacity_points, separatedChart,
      LengthValue.to_distance, MassValue.to_mass, lengthUnitToFeet,
      massUnitToPounds, List.mapM, List.mapM.loop, pure, Except.pure,
      Bind.bind, Except.bind]
  have h := C10_midpoint_interpolation separatedChart [80 * 1, 100 * 1] h1
    (by
      intro i j hi hj hij
      simp only [List.length_cons, List.length_nil] at hi hj
      interval_cases i <;> interval_cases j <;>
        first
        | exact absurd rfl hij
        | norm_num [abs_lt])
    0 (by norm_num) [] [] (20 * 1) (1000 * 1) (30 * 1) (600 * 1) hrow
    (by norm_num [List.pairwise_cons])
  norm_num at h
  exact h
